import Mathlib

/-!
Verification of `openshift-python-utilities` against its specification.

The development shallowly embeds the relevant parts of the repository:

* `ocp_utilities/infra.py`: `dict_base64_encode`, `create_update_secret`
  (including a model of Python's `json.dumps` / `json.loads` and of
  `base64.b64encode` / `base64.b64decode` over byte lists);
* `ocp_utilities/operators.py`: `install_operator`, `uninstall_operator`,
  `wait_for_install_plan_from_subscription`, `wait_for_operator_install`,
  `wait_for_csv_successful_state`, `get_csv_by_name`,
  `create_catalog_source_for_iib_install` (its `_icsp` helper);
* `ocp_utilities/monitoring.py`: `Prometheus.get_scrape_interval` and the
  alert / query samplers.

Strings are modelled as lists of Unicode code points (`List Nat`), bytes as
`Nat` below 256.  Remote-cluster interaction is modelled by an explicit
store plus a trace of mutation effects.
-/

namespace OcpUtils

/-! ### Base64 (model of Python `base64.b64encode` / `b64decode`) -/

/-- One sextet (value `< 64`) to its base64 alphabet character code. -/
def sextetChar (n : Nat) : Nat :=
  if n < 26 then 65 + n
  else if n < 52 then 97 + (n - 26)
  else if n < 62 then 48 + (n - 52)
  else if n = 62 then 43
  else 47

/-- Base64 alphabet character code back to its sextet value. -/
def charSextet (c : Nat) : Option Nat :=
  if 65 ≤ c ∧ c ≤ 90 then some (c - 65)
  else if 97 ≤ c ∧ c ≤ 122 then some (26 + (c - 97))
  else if 48 ≤ c ∧ c ≤ 57 then some (52 + (c - 48))
  else if c = 43 then some 62
  else if c = 47 then some 63
  else none

/-- Base64 encoding of a byte list, with `=` (code 61) padding. -/
def b64Encode : List Nat → List Nat
  | [] => []
  | [b1] => [sextetChar (b1 / 4), sextetChar (b1 % 4 * 16), 61, 61]
  | [b1, b2] =>
      [sextetChar (b1 / 4), sextetChar (b1 % 4 * 16 + b2 / 16),
       sextetChar (b2 % 16 * 4), 61]
  | b1 :: b2 :: b3 :: bs =>
      sextetChar (b1 / 4) :: sextetChar (b1 % 4 * 16 + b2 / 16) ::
      sextetChar (b2 % 16 * 4 + b3 / 64) :: sextetChar (b3 % 64) ::
      b64Encode bs

/-- Base64 decoding of canonical padded input; `none` on malformed input. -/
def b64Decode : List Nat → Option (List Nat)
  | [] => some []
  | c1 :: c2 :: c3 :: c4 :: cs =>
      if c3 = 61 then
        if c4 = 61 ∧ cs = [] then do
          let s1 ← charSextet c1
          let s2 ← charSextet c2
          pure [s1 * 4 + s2 / 16]
        else none
      else if c4 = 61 then
        if cs = [] then do
          let s1 ← charSextet c1
          let s2 ← charSextet c2
          let s3 ← charSextet c3
          pure [s1 * 4 + s2 / 16, s2 % 16 * 16 + s3 / 4]
        else none
      else do
        let s1 ← charSextet c1
        let s2 ← charSextet c2
        let s3 ← charSextet c3
        let s4 ← charSextet c4
        let rest ← b64Decode cs
        pure ((s1 * 4 + s2 / 16) :: (s2 % 16 * 16 + s3 / 4) :: (s3 % 4 * 64 + s4) :: rest)
  | _ => none

/-! ### JSON values: model of the data handled by Python `json.dumps` /
`json.loads` (default options: `ensure_ascii=True`, separators `", "` and
`": "`).  Strings are lists of Unicode code points; numbers are integers
(the repository secret payloads contain no floats).  `jsonWF` restricts
strings to non-surrogate code points of the Basic Multilingual Plane and
objects to distinct keys — the range on which the Python round trip is
exact and which covers every payload the repository builds. -/

inductive Json where
  | null : Json
  | bool (b : Bool) : Json
  | num (n : Int) : Json
  | str (s : List Nat) : Json
  | arr (xs : List Json) : Json
  | obj (kvs : List (List Nat × Json)) : Json
deriving Repr

/-- Decimal digit characters of `n`, most significant first. -/
def natDigits (n : Nat) : List Nat :=
  if n < 10 then [48 + n]
  else natDigits (n / 10) ++ [48 + n % 10]
decreasing_by exact Nat.div_lt_self (by omega) (by omega)

/-- Serialization of a Python `int` (decimal, optional leading minus). -/
def serInt (n : Int) : List Nat :=
  if n < 0 then 45 :: natDigits n.natAbs else natDigits n.natAbs

/-- Lower-case hex digit character for `n < 16`. -/
def hexDigitChar (n : Nat) : Nat := if n < 10 then 48 + n else 87 + n

/-- `\uXXXX` escape for code point `c < 0x10000`. -/
def uEscape (c : Nat) : List Nat :=
  [92, 117, hexDigitChar (c / 4096 % 16), hexDigitChar (c / 256 % 16),
   hexDigitChar (c / 16 % 16), hexDigitChar (c % 16)]

/-- Escape of one character, as in `json.encoder.py_encode_basestring_ascii`:
short escapes for `"`, `\` and common control characters, `\uXXXX` for other
control and non-ASCII characters, the character itself otherwise. -/
def escapeChar (c : Nat) : List Nat :=
  if c = 34 then [92, 34]
  else if c = 92 then [92, 92]
  else if c = 8 then [92, 98]
  else if c = 9 then [92, 116]
  else if c = 10 then [92, 110]
  else if c = 12 then [92, 102]
  else if c = 13 then [92, 114]
  else if c < 32 then uEscape c
  else if c < 127 then [c]
  else uEscape (c % 65536)

/-- The body of a serialized JSON string (no surrounding quotes). -/
def serStrBody : List Nat → List Nat
  | [] => []
  | c :: s => escapeChar c ++ serStrBody s

/-- A serialized JSON string, quotes included. -/
def serStr (s : List Nat) : List Nat := 34 :: (serStrBody s ++ [34])

mutual

/-- Model of `json.dumps` with default options, as character codes. -/
def serJson : Json → List Nat
  | .null => [110, 117, 108, 108]
  | .bool true => [116, 114, 117, 101]
  | .bool false => [102, 97, 108, 115, 101]
  | .num n => serInt n
  | .str s => serStr s
  | .arr [] => [91, 93]
  | .arr (x :: xs) => 91 :: (serJson x ++ serArrTail xs ++ [93])
  | .obj [] => [123, 125]
  | .obj ((k, v) :: kvs) =>
      123 :: (serStr k ++ 58 :: 32 :: serJson v ++ serObjTail kvs ++ [125])

/-- `", "`-separated serializations of the remaining array elements. -/
def serArrTail : List Json → List Nat
  | [] => []
  | x :: xs => 44 :: 32 :: (serJson x ++ serArrTail xs)

/-- `", "`-separated serializations of the remaining object entries. -/
def serObjTail : List (List Nat × Json) → List Nat
  | [] => []
  | (k, v) :: kvs => 44 :: 32 :: (serStr k ++ 58 :: 32 :: serJson v ++ serObjTail kvs)

end

/-- A well-formed code point: BMP, not a surrogate. -/
def wfChar (c : Nat) : Bool := decide (c < 55296) || (decide (57344 ≤ c) && decide (c < 65536))

/-- A well-formed string: all code points well-formed. -/
def wfStr : List Nat → Bool
  | [] => true
  | c :: s => wfChar c && wfStr s

/-- Pairwise-distinct object keys (Python `dict` keys are unique). -/
def keysNodup : List (List Nat) → Bool
  | [] => true
  | k :: ks => !(ks.contains k) && keysNodup ks

mutual

/-- Well-formed JSON value (see `Json`). -/
def jsonWF : Json → Bool
  | .null => true
  | .bool _ => true
  | .num _ => true
  | .str s => wfStr s
  | .arr xs => jsonWFList xs
  | .obj kvs => keysNodup (kvs.map Prod.fst) && jsonWFObj kvs

/-- All list elements well-formed. -/
def jsonWFList : List Json → Bool
  | [] => true
  | x :: xs => jsonWF x && jsonWFList xs

/-- All object entries well-formed (keys and values). -/
def jsonWFObj : List (List Nat × Json) → Bool
  | [] => true
  | (k, v) :: kvs => wfStr k && jsonWF v && jsonWFObj kvs

end

/-! ### JSON parsing (model of `json.loads` on serializer output) -/

/-- Hex digit value (both cases accepted, as by Python). -/
def hexVal (c : Nat) : Option Nat :=
  if 48 ≤ c ∧ c ≤ 57 then some (c - 48)
  else if 97 ≤ c ∧ c ≤ 102 then some (c - 87)
  else if 65 ≤ c ∧ c ≤ 70 then some (c - 55)
  else none

/-- Is `c` a decimal digit character? -/
def isDigitChar (c : Nat) : Bool := decide (48 ≤ c) && decide (c ≤ 57)

/-- Split off the longest leading run of digit characters. -/
def takeDigits : List Nat → List Nat × List Nat
  | [] => ([], [])
  | c :: rest =>
      if isDigitChar c then
        let p := takeDigits rest
        (c :: p.1, p.2)
      else ([], c :: rest)

/-- Value of a digit-character list, most significant first. -/
def digitsVal (ds : List Nat) : Nat := ds.foldl (fun a c => a * 10 + (c - 48)) 0

/-- Parse the body of a JSON string up to the closing quote, undoing
`escapeChar`; returns the decoded code points and the remaining input. -/
def parseStrBody : List Nat → Option (List Nat × List Nat)
  | [] => none
  | c :: rest =>
      if c = 34 then some ([], rest)
      else if c = 92 then
        match rest with
        | [] => none
        | e :: rest2 =>
            if e = 34 then (parseStrBody rest2).map fun p => (34 :: p.1, p.2)
            else if e = 92 then (parseStrBody rest2).map fun p => (92 :: p.1, p.2)
            else if e = 47 then (parseStrBody rest2).map fun p => (47 :: p.1, p.2)
            else if e = 98 then (parseStrBody rest2).map fun p => (8 :: p.1, p.2)
            else if e = 116 then (parseStrBody rest2).map fun p => (9 :: p.1, p.2)
            else if e = 110 then (parseStrBody rest2).map fun p => (10 :: p.1, p.2)
            else if e = 102 then (parseStrBody rest2).map fun p => (12 :: p.1, p.2)
            else if e = 114 then (parseStrBody rest2).map fun p => (13 :: p.1, p.2)
            else if e = 117 then
              match rest2 with
              | h1 :: h2 :: h3 :: h4 :: rest3 => do
                  let v1 ← hexVal h1
                  let v2 ← hexVal h2
                  let v3 ← hexVal h3
                  let v4 ← hexVal h4
                  let p ← parseStrBody rest3
                  pure ((v1 * 4096 + v2 * 256 + v3 * 16 + v4) :: p.1, p.2)
              | _ => none
            else none
      else (parseStrBody rest).map fun p => (c :: p.1, p.2)

/-- `rest` does not continue a decimal literal. -/
def noDigitHead : List Nat → Bool
  | [] => true
  | c :: _ => !(isDigitChar c)

mutual

/-- Fueled parser for one JSON value; accepts exactly the serializer's
output grammar and returns the remaining input. -/
def parseVal : Nat → List Nat → Option (Json × List Nat)
  | 0, _ => none
  | _ + 1, [] => none
  | fuel + 1, c :: rest =>
      if c = 110 then
        match rest with
        | 117 :: 108 :: 108 :: r => some (.null, r)
        | _ => none
      else if c = 116 then
        match rest with
        | 114 :: 117 :: 101 :: r => some (.bool true, r)
        | _ => none
      else if c = 102 then
        match rest with
        | 97 :: 108 :: 115 :: 101 :: r => some (.bool false, r)
        | _ => none
      else if c = 34 then (parseStrBody rest).map fun p => (.str p.1, p.2)
      else if c = 91 then
        match rest with
        | [] => none
        | c2 :: rest2 =>
            if c2 = 93 then some (.arr [], rest2)
            else do
              let p1 ← parseVal fuel (c2 :: rest2)
              let p2 ← parseArrTail fuel p1.2
              pure (.arr (p1.1 :: p2.1), p2.2)
      else if c = 123 then
        match rest with
        | [] => none
        | c2 :: rest2 =>
            if c2 = 125 then some (.obj [], rest2)
            else if c2 = 34 then do
              let pk ← parseStrBody rest2
              match pk.2 with
              | 58 :: 32 :: s2 => do
                  let pv ← parseVal fuel s2
                  let pr ← parseObjTail fuel pv.2
                  pure (.obj ((pk.1, pv.1) :: pr.1), pr.2)
              | _ => none
            else none
      else if c = 45 then
        match takeDigits rest with
        | ([], _) => none
        | (ds, rest2) => some (.num (-(digitsVal ds : Int)), rest2)
      else if isDigitChar c then
        match takeDigits (c :: rest) with
        | (ds, rest2) => some (.num (digitsVal ds : Int), rest2)
      else none

/-- Parse the remainder of an array after its first element: `", "`-led
elements up to the closing bracket. -/
def parseArrTail : Nat → List Nat → Option (List Json × List Nat)
  | 0, _ => none
  | _ + 1, [] => none
  | fuel + 1, c :: rest =>
      if c = 93 then some ([], rest)
      else if c = 44 then
        match rest with
        | 32 :: rest2 => do
            let p1 ← parseVal fuel rest2
            let p2 ← parseArrTail fuel p1.2
            pure (p1.1 :: p2.1, p2.2)
        | _ => none
      else none

/-- Parse the remainder of an object after its first entry: `", "`-led
entries up to the closing brace. -/
def parseObjTail : Nat → List Nat → Option (List (List Nat × Json) × List Nat)
  | 0, _ => none
  | _ + 1, [] => none
  | fuel + 1, c :: rest =>
      if c = 125 then some ([], rest)
      else if c = 44 then
        match rest with
        | 32 :: 34 :: rest2 => do
            let pk ← parseStrBody rest2
            match pk.2 with
            | 58 :: 32 :: s2 => do
                let pv ← parseVal fuel s2
                let pr ← parseObjTail fuel pv.2
                pure ((pk.1, pv.1) :: pr.1, pr.2)
            | _ => none
        | _ => none
      else none

end

/-- Model of `json.loads`: parse one value, require full consumption. -/
def jsonLoads (s : List Nat) : Option Json :=
  match parseVal (s.length + 1) s with
  | some (v, []) => some v
  | _ => none

/-! ### infra.py: `dict_base64_encode` and `create_update_secret` -/

/-- Code points of a Lean string (for embedding Python string literals). -/
def strCodes (s : String) : List Nat := s.data.map Char.toNat

/-- Model of `dict_base64_encode` (`infra.py`): `json.dumps(_dict)`,
`.encode("ascii")` (the identity on the ASCII output of
`ensure_ascii=True`), `base64.b64encode`, `.decode("utf-8")` (the identity
on base64 text). -/
def dict_base64_encode (d : Json) : List Nat := b64Encode (serJson d)

/-- First binding of a key in a JSON object (Python `dict` lookup;
objects built by the repository have distinct keys). -/
def lookupKey : List (List Nat × Json) → List Nat → Option Json
  | [], _ => none
  | (k', v') :: rest, k => if k' = k then some v' else lookupKey rest k

/-- Python `dict.__setitem__`: replace the first binding in place, or
append a fresh key at the end. -/
def setKey : List (List Nat × Json) → List Nat → Json → List (List Nat × Json)
  | [], k, v => [(k, v)]
  | (k', v') :: rest, k, v =>
      if k' = k then (k, v) :: rest else (k', v') :: setKey rest k v

/-- Python `dict.update` (used as `old_secret_data_dict.update(...)` in
`create_update_secret`): apply each new binding in order. -/
def dictUpdate (d other : List (List Nat × Json)) : List (List Nat × Json) :=
  other.foldl (fun acc kv => setKey acc kv.1 kv.2) d

/-- The code points of the string `"auths"`. -/
def authsKey : List Nat := strCodes "auths"

/-- `d["auths"]` when it is a JSON object (`none` models the Python
`KeyError` / `AttributeError` paths). -/
def getAuths (d : Json) : Option (List (List Nat × Json)) :=
  match d with
  | .obj kvs =>
      match lookupKey kvs authsKey with
      | some (.obj akvs) => some akvs
      | _ => none
  | _ => none

/-- The secrets of the remote store: `(name, namespace)` to the value of
the `.dockerconfigjson` data field (base64 text as code points). -/
abbrev SecretsStore : Type := List ((String × String) × List Nat)

/-- First stored payload for a secret key. -/
def lookupSecret : SecretsStore → (String × String) → Option (List Nat)
  | [], _ => none
  | (k', v') :: rest, key => if k' = key then some v' else lookupSecret rest key

/-- Store a payload under a secret key: replace in place or append. -/
def setSecret : SecretsStore → (String × String) → List Nat → SecretsStore
  | [], key, v => [(key, v)]
  | (k', v') :: rest, key, v =>
      if k' = key then (key, v) :: rest else (k', v') :: setSecret rest key v

/-- Model of `create_update_secret` (`infra.py`).  When the secret exists,
its stored `.dockerconfigjson` payload is base64- and JSON-decoded, its
`auths` map is updated in place with the new `auths` map, and the result is
re-encoded and patched; otherwise the new data dict is encoded and the
secret is created.  `none` models a raised Python exception (malformed
stored payload or data dict). -/
def create_update_secret (store : SecretsStore) (secret_data_dict : Json)
    (name ns : String) : Option SecretsStore :=
  match lookupSecret store (name, ns) with
  | some stored => do
      let bytes ← b64Decode stored
      let old ← jsonLoads bytes
      let oldAuths ← getAuths old
      let newAuths ← getAuths secret_data_dict
      let merged := dictUpdate oldAuths newAuths
      pure (setSecret store (name, ns)
        (dict_base64_encode (.obj [(authsKey, .obj merged)])))
  | none =>
      some (setSecret store (name, ns) (dict_base64_encode secret_data_dict))

/-! ### operators.py embedding: remote interaction is modelled by an
explicit `Store` (what exists on the cluster), a `ClusterEnv` of polled
status observations (attempt index to observed value, standing in for the
remote reconciler), and a trace of mutation/wait `Effect`s.
`ocp_resources` primitives are modelled after their documented semantics:
`deploy` creates the object, `clean_up` deletes it and is a no-op when it
is absent, `TimeoutSampler(wait_timeout, sleep)` probes once per `sleep`
seconds until `wait_timeout` elapses. -/

inductive Effect where
  | deployNamespace (name : String)
  | deleteNamespace (name : String)
  | deployOperatorGroup (name ns : String)
  | deleteOperatorGroup (name ns : String)
  | deploySubscription (name ns channel source : String)
  | deleteSubscription (name ns : String)
  | deployCatalogSource (name ns image : String)
  | createIcsp (name : String)
  | patchIcsp (name : String)
  | patchWebhook (name : String)
  | restoreWebhook (name : String)
  | updateSecret (name ns : String)
  | createSecret (name ns : String)
  | samplerWait (kind : String) (timeoutSec sleepSec : Nat)
  | waitStatus (kind target : String) (timeoutSec : Nat)
  | waitDeleted (kind : String) (timeoutSec : Nat)
  | logError (msg : String)
deriving Repr, DecidableEq

inductive OpError where
  | valueError (msg : String)
  | timeoutExpired
  | resourceNotFound (msg : String)
  | attributeError
  | pyException
deriving Repr, DecidableEq

/-- The remote objects touched by `operators.py`. -/
structure Store where
  namespaces : List String
  operatorGroups : List (String × String)
  /-- `(name, namespace)` to the subscription's `status.installedCSV`. -/
  subscriptions : List ((String × String) × Option String)
  /-- Cluster-scoped `Operator` record names. -/
  operators : List String
  csvs : List (String × String)
  catalogSources : List (String × String × String)
  /-- Body of the `brew-registry` `ImageContentSourcePolicy`, if present. -/
  icspObj : Option Json
  /-- Is the `sre-imagecontentpolicies-validation` webhook present? -/
  webhookPresent : Bool
  secrets : SecretsStore
deriving Repr

/-- Status observations polled from the remote reconciler, one value per
sampler attempt. -/
structure ClusterEnv where
  /-- `subscription.instance.status.installplan` (`none` = falsy). -/
  installPlanRef : Nat → Option String
  /-- Did the install plan show status `Complete` at this attempt? -/
  installPlanComplete : Nat → Bool
  /-- `subscription.instance.status.installedCSV` (`none` = falsy). -/
  installedCSV : Nat → Option String
  /-- Did the CSV show status `Succeeded` at this attempt? -/
  csvSucceeded : Nat → Bool

def TIMEOUT_5MIN : Nat := 5 * 60
def TIMEOUT_10MIN : Nat := 10 * 60
def TIMEOUT_30MIN : Nat := 30 * 60

/-- Python string truthiness of an optional string. -/
def truthy : Option String → Bool
  | none => false
  | some s => !(s == "")

/-- Python `a or b` for a possibly-`None` string `a`. -/
def strOr (a : Option String) (b : String) : String :=
  match a with
  | some s => if s = "" then b else s
  | none => b

/-- Python `a or b` for strings. -/
def pyOr (a b : String) : String := if a = "" then b else a

/-- Python `s.startswith(pre)`, at the level of code points. -/
def pyStartsWith (s pre : String) : Bool := List.isPrefixOf (strCodes pre) (strCodes s)

/-- Attempts performed by `TimeoutSampler(wait_timeout, sleep)`: one probe
at each multiple of `sleep` not exceeding `wait_timeout`. -/
def samplerAttempts (timeoutSec sleepSec : Nat) : Nat := timeoutSec / sleepSec + 1

/-- First truthy observation within `n` attempts. -/
def firstSome {α : Type} : Nat → (Nat → Option α) → Option α
  | 0, _ => none
  | n + 1, obs =>
      match obs 0 with
      | some v => some v
      | none => firstSome n (fun i => obs (i + 1))

/-- Did any of the first `n` attempts observe `true`? -/
def anyHit (n : Nat) (obs : Nat → Bool) : Bool := (List.range n).any obs

/-- An `InstallPlan` handle as constructed by the embedding of
`wait_for_install_plan_from_subscription`. -/
structure InstallPlanHandle where
  name : String
  ns : String
deriving Repr, DecidableEq

/-- Model of `wait_for_install_plan_from_subscription` (`operators.py`):
a `TimeoutSampler(wait_timeout=timeout, sleep=30)` over the subscription's
`status.installplan`; the first truthy sample yields an `InstallPlan`
handle named after the reference in the subscription's namespace; on
expiry the last-seen subscription state is logged and the timeout error is
re-raised. -/
def wait_for_install_plan_from_subscription (env : ClusterEnv)
    (subName subNs : String) (timeout : Nat := TIMEOUT_5MIN) :
    Except OpError InstallPlanHandle × List Effect :=
  let trace := [Effect.samplerWait "installplan" timeout 30]
  match firstSome (samplerAttempts timeout 30) env.installPlanRef with
  | some ipName => (.ok ⟨ipName, subNs⟩, trace)
  | none =>
      (.error .timeoutExpired,
       trace ++ [Effect.logError
         ("Subscription: " ++ subName ++ ", did not get updated with install plan")])

/-- Model of `ocp_resources` `Resource.wait_for_status(status, timeout)`
(library default `sleep=1`): succeed when some attempt within the deadline
observes the target status. -/
def wait_for_status (kind target : String) (obs : Nat → Bool) (timeout : Nat) :
    Except OpError Unit × List Effect :=
  (if anyHit (samplerAttempts timeout 1) obs then .ok () else .error .timeoutExpired,
   [Effect.waitStatus kind target timeout])

/-- Model of `get_csv_by_name` (`operators.py`): resolve the CSV handle and
fail with `ResourceNotFoundError` when it does not exist. -/
def get_csv_by_name (store : Store) (csv_name ns : String) :
    Except OpError (String × String) :=
  if (csv_name, ns) ∈ store.csvs then .ok (csv_name, ns)
  else .error (.resourceNotFound ("CSV " ++ csv_name ++ " not found in namespace: " ++ ns))

/-- Model of `wait_for_csv_successful_state` (`operators.py`): an inner
`TimeoutSampler(wait_timeout=30, sleep=1)` over `status.installedCSV`,
then `get_csv_by_name` in the subscription's namespace, then
`csv.wait_for_status(status=SUCCEEDED, timeout=timeout)`. -/
def wait_for_csv_successful_state (env : ClusterEnv) (store : Store)
    (subName subNs : String) (timeout : Nat := TIMEOUT_10MIN) :
    Except OpError Unit × List Effect :=
  let t0 := [Effect.samplerWait "installedCSV" 30 1]
  match firstSome (samplerAttempts 30 1) env.installedCSV with
  | none => (.error .timeoutExpired, t0)
  | some csvName =>
      match get_csv_by_name store csvName subNs with
      | .error e => (.error e, t0)
      | .ok _ =>
          let r := wait_for_status "ClusterServiceVersion" "Succeeded"
            env.csvSucceeded timeout
          (r.1, t0 ++ r.2)

/-- Model of `wait_for_operator_install` (`operators.py`): install-plan
discovery (no timeout passed on, so the 5-minute default applies), then
`install_plan.wait_for_status(COMPLETE, timeout)` with the caller's
timeout, then `wait_for_csv_successful_state` (again with its defaults). -/
def wait_for_operator_install (env : ClusterEnv) (store : Store)
    (subName subNs : String) (timeout : Nat := TIMEOUT_5MIN) :
    Except OpError Unit × List Effect :=
  let r1 := wait_for_install_plan_from_subscription env subName subNs
  match r1.1 with
  | .error e => (.error e, r1.2)
  | .ok _ =>
      let r2 := wait_for_status "InstallPlan" "Complete" env.installPlanComplete timeout
      match r2.1 with
      | .error e => (.error e, r1.2 ++ r2.2)
      | .ok _ =>
          let r3 := wait_for_csv_successful_state env store subName subNs
          (r3.1, r1.2 ++ r2.2 ++ r3.2)

/-- The body `ResourceEditor` patches onto an existing `brew-registry`
ICSP in `_icsp` — verbatim from the source, key `"spec:"` included. -/
def icspPatchBody (rdm : Json) : Json :=
  .obj [(strCodes "spec:", .obj [(strCodes "repository_digest_mirrors", rdm)])]

/-- The body `create_icsp` (`infra.py`) deploys:
`ImageContentSourcePolicy(name, repository_digest_mirrors=...)`. -/
def icspCreateBody (rdm : Json) : Json :=
  .obj [(strCodes "spec", .obj [(strCodes "repositoryDigestMirrors", rdm)])]

mutual

/-- Kubernetes merge-patch as applied by `ResourceEditor.update`: objects
merge key-wise and recursively, anything else is overwritten. -/
def mergePatch : Json → Json → Json
  | .obj old, .obj patch => .obj (mergePatchList old patch)
  | _, p => p

def mergePatchList : List (List Nat × Json) → List (List Nat × Json) →
    List (List Nat × Json)
  | old, [] => old
  | old, (k, v) :: rest =>
      mergePatchList
        (match lookupKey old k with
         | some oldv => setKey old k (mergePatch oldv v)
         | none => old ++ [(k, v)])
        rest

end

/-- Model of the inner `_icsp` helper of
`create_catalog_source_for_iib_install`: patch-merge `icspPatchBody` when
the `brew-registry` object exists, otherwise create it via `create_icsp`. -/
def icspStep (existing : Option Json) (rdm : Json) : Json × Effect :=
  match existing with
  | some obj => (mergePatch obj (icspPatchBody rdm), .patchIcsp "brew-registry")
  | none => (icspCreateBody rdm, .createIcsp "brew-registry")

/-- The repository-digest-mirror rules computed for an index image hosted
on `sourceReg`. -/
def repositoryDigestMirrors (sourceReg : String) : Json :=
  .arr [
    .obj [(strCodes "source", .str (strCodes sourceReg)),
          (strCodes "mirrors", .arr [.str (strCodes "brew.registry.redhat.io")])],
    .obj [(strCodes "source", .str (strCodes "registry.redhat.io")),
          (strCodes "mirrors", .arr [.str (strCodes "brew.registry.redhat.io")])]]

/-- Model of `create_catalog_source_for_iib_install` (`operators.py`):
rewrite the index image's registry host to the brew mirror, create or
patch the shared ICSP (suspending the admission-webhook rule on managed
clusters), merge the brew token into the shared pull secret, and deploy
the catalog source.  Returns the catalog source name. -/
def create_catalog_source_for_iib_install (store : Store)
    (name iib_index_image brew_token operator_market_namespace : String) :
    Except OpError (String × Store × List Effect) :=
  let brew_registry := "brew.registry.redhat.io"
  let source_iib_registry := ((iib_index_image.splitOn "/").headD "")
  let iibImage := iib_index_image.replace source_iib_registry brew_registry
  let rdm := repositoryDigestMirrors source_iib_registry
  let icspRes := icspStep store.icspObj rdm
  let icspTrace :=
    if store.webhookPresent then
      [Effect.patchWebhook "sre-imagecontentpolicies-validation", icspRes.2,
       Effect.restoreWebhook "sre-imagecontentpolicies-validation"]
    else [icspRes.2]
  let store1 := { store with icspObj := some icspRes.1 }
  let secret_data_dict : Json :=
    .obj [(authsKey, .obj [(strCodes brew_registry,
      .obj [(strCodes "auth", .str (strCodes brew_token))])])]
  match create_update_secret store1.secrets secret_data_dict
      "pull-secret" "openshift-config" with
  | none => .error .pyException
  | some secrets1 =>
      let store2 := { store1 with
        secrets := secrets1,
        catalogSources := (name, operator_market_namespace, iibImage) ::
          store1.catalogSources }
      .ok (name, store2,
        icspTrace ++
        [Effect.updateSecret "pull-secret" "openshift-config",
         Effect.deployCatalogSource name operator_market_namespace iibImage])

/-- Model of `install_operator` (`operators.py`), faithful to the source's
statement order: the `iib_index_image`/`brew_token` and `source`
configuration checks come first and raise `ValueError` before any remote
call; then namespaces, operator group and subscription are deployed and
`wait_for_operator_install` runs. -/
def install_operator (env : ClusterEnv) (store : Store)
    (name channel : String) (source : Option String)
    (target_namespaces : Option (List String)) (timeout : Nat)
    (operator_namespace : Option String) (iib_index_image : Option String)
    (brew_token : Option String) :
    Except OpError Unit × Store × List Effect :=
  let operator_market_namespace := "openshift-marketplace"
  let iibStep : Except OpError (Option String × Store × List Effect) :=
    if truthy iib_index_image then
      if ¬ truthy brew_token then
        .error (.valueError "brew_token must be provided for iib_index_image")
      else
        match create_catalog_source_for_iib_install store
            ("iib-catalog-" ++ name.toLower) ((iib_index_image).getD "")
            ((brew_token).getD "") operator_market_namespace with
        | .error e => .error e
        | .ok r => .ok (some r.1, r.2.1, r.2.2)
    else
      if ¬ truthy source then
        .error (.valueError "source must be provided if not using iib_index_image")
      else .ok (none, store, [])
  match iibStep with
  | .error e => (.error e, store, [])
  | .ok (catalogSourceName, store1, t1) =>
      let opNs := strOr operator_namespace name
      let nsStep : Store × List Effect :=
        match target_namespaces with
        | some (ns0 :: nss) =>
            (ns0 :: nss).foldl
              (fun acc ns =>
                if ns ∈ acc.1.namespaces then acc
                else ({ acc.1 with namespaces := acc.1.namespaces ++ [ns] },
                      acc.2 ++ [Effect.deployNamespace ns]))
              (store1, [])
        | _ =>
            if opNs ∈ store1.namespaces then (store1, [])
            else ({ store1 with namespaces := store1.namespaces ++ [opNs] },
                  [Effect.deployNamespace opNs])
      let store2 := nsStep.1
      let store3 := { store2 with operatorGroups := (name, opNs) :: store2.operatorGroups }
      let sourceName := match catalogSourceName with
        | some n => n
        | none => source.getD ""
      let store4 := { store3 with
        subscriptions := ((name, opNs), none) :: store3.subscriptions }
      let t2 := nsStep.2 ++
        [Effect.deployOperatorGroup name opNs,
         Effect.deploySubscription name opNs channel sourceName]
      let r := wait_for_operator_install env store4 name opNs timeout
      (r.1, store4, t1 ++ t2 ++ r.2)

/-- `Namespace(...).clean_up()` guarded by `ns.exists` as in
`uninstall_operator`: delete the namespace when present, no-op otherwise. -/
def deleteNsIfExists (st : Store) (ns : String) : Store × List Effect :=
  if ns ∈ st.namespaces then
    ({ st with namespaces := st.namespaces.erase ns }, [Effect.deleteNamespace ns])
  else (st, [])

/-- The namespace-deletion loop of `uninstall_operator`: for every operator
record whose name starts with the target name, delete the namespace
`operator_namespace or name.split(".")[-1]` — where `operator_namespace`
has already been rebound to `operator_namespace or name`. -/
def uninstallNamespaceLoop (ops : List String) (name resolvedNs : String)
    (st : Store) : Store × List Effect :=
  match ops with
  | [] => (st, [])
  | op :: rest =>
      if pyStartsWith op name then
        ((uninstallNamespaceLoop rest name resolvedNs
            (deleteNsIfExists st (pyOr resolvedNs ((name.splitOn ".").getLastD ""))).1).1,
         (deleteNsIfExists st (pyOr resolvedNs ((name.splitOn ".").getLastD ""))).2 ++
         (uninstallNamespaceLoop rest name resolvedNs
            (deleteNsIfExists st (pyOr resolvedNs ((name.splitOn ".").getLastD ""))).1).2)
      else uninstallNamespaceLoop rest name resolvedNs st

/-- First subscription record for a key. -/
def lookupSub : List ((String × String) × Option String) → (String × String) →
    Option (Option String)
  | [], _ => none
  | (k', v') :: rest, key => if k' = key then some v' else lookupSub rest key

/-- Remove the first subscription record for a key. -/
def removeSub : List ((String × String) × Option String) → (String × String) →
    List ((String × String) × Option String)
  | [], _ => []
  | (k', v') :: rest, key => if k' = key then rest else (k', v') :: removeSub rest key

/-- Model of `uninstall_operator` (`operators.py`): remember the
subscription's `installedCSV` and delete it if present, delete the
operator group (a no-op when absent), run the namespace-deletion loop over
all operator records, and finally wait for the recorded CSV to be removed.
`csvGone` says whether the deletion poll eventually observes removal. -/
def uninstall_operator (store : Store) (name : String) (timeout : Nat)
    (operator_namespace : Option String) (csvGone : Bool) :
    Except OpError Unit × Store × List Effect :=
  let opNs := strOr operator_namespace name
  let subStep : Option String × Store × List Effect :=
    match lookupSub store.subscriptions (name, opNs) with
    | some installedCsv =>
        (installedCsv,
         { store with subscriptions := removeSub store.subscriptions (name, opNs) },
         [Effect.deleteSubscription name opNs])
    | none => (none, store, [])
  let csvName := subStep.1
  let store1 := subStep.2.1
  let ogStep : Store × List Effect :=
    if (name, opNs) ∈ store1.operatorGroups then
      ({ store1 with operatorGroups := store1.operatorGroups.erase (name, opNs) },
       [Effect.deleteOperatorGroup name opNs])
    else (store1, [])
  let store2 := ogStep.1
  let nsStep := uninstallNamespaceLoop store2.operators name opNs store2
  let store3 := nsStep.1
  let trace := subStep.2.2 ++ ogStep.2 ++ nsStep.2
  if truthy csvName then
    (if csvGone then .ok () else .error .timeoutExpired,
     store3, trace ++ [Effect.waitDeleted "ClusterServiceVersion" timeout])
  else (.ok (), store3, trace)

/-! ### monitoring.py embedding -/

/-- An active target as returned by the `/api/v1/targets` endpoint
(`none` stands for a falsy entry skipped by the loop). -/
structure TargetRec where
  job : String
  scrapeInterval : String
deriving Repr, DecidableEq

/-- `int(re.match(r"\d+", s).group())`: the leading decimal literal of `s`;
`none` models the `AttributeError` when `s` does not start with a digit. -/
def leadingNat (s : String) : Option Nat :=
  match takeDigits (strCodes s) with
  | ([], _) => none
  | (ds, _) => some (digitsVal ds)

/-- Model of `Prometheus.get_scrape_interval` (`monitoring.py`): scan the
active targets, return the leading integer of the `scrapeInterval` of the
first truthy target whose `job` label is `prometheus-k8s`, else 30. -/
def get_scrape_interval : List (Option TargetRec) → Except OpError Nat
  | [] => .ok 30
  | t :: rest =>
      match t with
      | none => get_scrape_interval rest
      | some tr =>
          if tr.job = "prometheus-k8s" then
            match leadingNat tr.scrapeInterval with
            | some n => .ok n
            | none => .error .attributeError
          else get_scrape_interval rest

/-- The state of a `Prometheus` instance relevant here: the scrape
interval discovered once in `__init__`. -/
structure Prometheus where
  scrape_interval : Nat
deriving Repr, DecidableEq

/-- `Prometheus.__init__`: `self.scrape_interval = self.get_scrape_interval()`. -/
def mkPrometheus (targets : List (Option TargetRec)) : Except OpError Prometheus :=
  match get_scrape_interval targets with
  | .ok n => .ok ⟨n⟩
  | .error e => .error e

/-- A query response: top-level `status` and `data.result`. -/
structure QueryResponse where
  status : String
  result : List String
deriving Repr, DecidableEq

/-- An active alert record. -/
structure Alert where
  name : String
  state : String
deriving Repr, DecidableEq

/-- `get_alerts_by_state`: filter active alerts by name, then by state. -/
def get_alerts_by_state (alerts : List Alert) (alert_name state : String) :
    List Alert :=
  (alerts.filter (fun a => a.name == alert_name)).filter (fun a => a.state == state)

/-- Model of `Prometheus.query_sampler`: a
`TimeoutSampler(wait_timeout=timeout, sleep=self.scrape_interval)` over the
query, returning the first successful response's result. -/
def query_sampler (p : Prometheus) (obs : Nat → QueryResponse)
    (timeout : Nat := 2 * 60) : Except OpError (List String) × List Effect :=
  (match firstSome (samplerAttempts timeout p.scrape_interval)
      (fun i => if (obs i).status = "success" then some (obs i).result else none) with
   | some r => .ok r
   | none => .error .timeoutExpired,
   [Effect.samplerWait "query" timeout p.scrape_interval])

/-- Model of `Prometheus.wait_for_alert_by_state_sampler`: a
`TimeoutSampler(wait_timeout=timeout, sleep=self.scrape_interval)` over
`get_alerts_by_state`, returning the first non-empty filtered list. -/
def wait_for_alert_by_state_sampler (p : Prometheus) (obs : Nat → List Alert)
    (alert_name : String) (timeout : Nat := TIMEOUT_10MIN)
    (state : String := "firing") : Except OpError (List Alert) × List Effect :=
  (match firstSome (samplerAttempts timeout p.scrape_interval)
      (fun i =>
        match get_alerts_by_state (obs i) alert_name state with
        | [] => none
        | l => some l) with
   | some l => .ok l
   | none => .error .timeoutExpired,
   [Effect.samplerWait "alerts" timeout p.scrape_interval])

/-- The first truthy target with job label `prometheus-k8s` (specification
formulation, via `List.findSome?`). -/
def firstPromTarget (targets : List (Option TargetRec)) : Option TargetRec :=
  targets.findSome? (fun t? =>
    match t? with
    | some tr => if tr.job = "prometheus-k8s" then some tr else none
    | none => none)

/-! ### Fixtures for concrete witnesses -/

/-- An empty cluster store. -/
def emptyStore : Store :=
  { namespaces := [], operatorGroups := [], subscriptions := [], operators := [],
    csvs := [], catalogSources := [], icspObj := none, webhookPresent := false,
    secrets := [] }

/-- An environment whose polls never observe anything. -/
def quietEnv : ClusterEnv :=
  ⟨fun _ => none, fun _ => false, fun _ => none, fun _ => false⟩

/-- The C2 scenario: the operator record `my-op.prod-ns` encodes namespace
`prod-ns`; both `prod-ns` and the default operator namespace `my-op`
exist. -/
def c2Store : Store :=
  { namespaces := ["prod-ns", "my-op"], operatorGroups := [], subscriptions := [],
    operators := ["my-op.prod-ns"], csvs := [], catalogSources := [],
    icspObj := none, webhookPresent := false, secrets := [] }

/-- Lookup in a JSON object value. -/
def jsonObjLookup (v : Json) (k : List Nat) : Option Json :=
  match v with
  | .obj kvs => lookupKey kvs k
  | _ => none

/-- The rules computed for an index image hosted on the internal proxy. -/
def c6Rdm : Json := repositoryDigestMirrors "registry-proxy.engineering.redhat.com"

/-- An existing `brew-registry` ICSP whose spec holds no mirror rules yet. -/
def c6Existing : Json :=
  .obj [(strCodes "spec", .obj [(strCodes "repositoryDigestMirrors", .arr [])])]

/-- The secret-merge example `A` of the specification:
`{"a": {"auth": "x"}}`. -/
def exampleA : List (List Nat × Json) :=
  [(strCodes "a", .obj [(strCodes "auth", .str (strCodes "x"))])]

/-- The secret-merge example `B` of the specification:
`{"b": {"auth": "y"}}`. -/
def exampleB : List (List Nat × Json) :=
  [(strCodes "b", .obj [(strCodes "auth", .str (strCodes "y"))])]

/-- A store holding the example secret `{"auths": {"a": {"auth": "x"}}}`. -/
def exampleStore : SecretsStore :=
  [(("pull-secret", "openshift-config"),
    dict_base64_encode (.obj [(authsKey, .obj exampleA)]))]

theorem charSextet_sextetChar_fin :
    ∀ n : Fin 64, charSextet (sextetChar n.val) = some n.val := by decide

theorem charSextet_sextetChar {n : Nat} (h : n < 64) :
    charSextet (sextetChar n) = some n :=
  charSextet_sextetChar_fin ⟨n, h⟩

theorem sextetChar_ne_61_fin : ∀ n : Fin 64, sextetChar n.val ≠ 61 := by decide

theorem sextetChar_ne_61 {n : Nat} (h : n < 64) : sextetChar n ≠ 61 :=
  sextetChar_ne_61_fin ⟨n, h⟩

theorem b64_roundtrip : ∀ bs : List Nat, (∀ b ∈ bs, b < 256) →
    b64Decode (b64Encode bs) = some bs := by
  intro bs
  induction bs using b64Encode.induct with
  | case1 => intro _; rfl
  | case2 b1 =>
      intro h
      have hb1 : b1 < 256 := h b1 (by simp)
      have c1 := charSextet_sextetChar (show b1 / 4 < 64 by omega)
      have c2 := charSextet_sextetChar (show b1 % 4 * 16 < 64 by omega)
      simp only [b64Encode, b64Decode, c1, c2, and_self, if_true, Option.bind_eq_bind,
        Option.some_bind, pure, Option.some.injEq, List.cons.injEq, and_true]
      omega
  | case3 b1 b2 =>
      intro h
      have hb1 : b1 < 256 := h b1 (by simp)
      have hb2 : b2 < 256 := h b2 (by simp)
      have c1 := charSextet_sextetChar (show b1 / 4 < 64 by omega)
      have c2 := charSextet_sextetChar (show b1 % 4 * 16 + b2 / 16 < 64 by omega)
      have c3 := charSextet_sextetChar (show b2 % 16 * 4 < 64 by omega)
      have n3 := sextetChar_ne_61 (show b2 % 16 * 4 < 64 by omega)
      simp only [b64Encode, b64Decode, c1, c2, c3, if_neg n3, and_self, if_true,
        Option.bind_eq_bind, Option.some_bind, pure, Option.some.injEq,
        List.cons.injEq, and_true]
      omega
  | case4 b1 b2 b3 bs ih =>
      intro h
      have hb1 : b1 < 256 := h b1 (by simp)
      have hb2 : b2 < 256 := h b2 (by simp)
      have hb3 : b3 < 256 := h b3 (by simp)
      have hrest : ∀ b ∈ bs, b < 256 := fun b hb => h b (by simp [hb])
      have c1 := charSextet_sextetChar (show b1 / 4 < 64 by omega)
      have c2 := charSextet_sextetChar (show b1 % 4 * 16 + b2 / 16 < 64 by omega)
      have c3 := charSextet_sextetChar (show b2 % 16 * 4 + b3 / 64 < 64 by omega)
      have c4 := charSextet_sextetChar (show b3 % 64 < 64 by omega)
      have n3 := sextetChar_ne_61 (show b2 % 16 * 4 + b3 / 64 < 64 by omega)
      have n4 := sextetChar_ne_61 (show b3 % 64 < 64 by omega)
      simp only [b64Encode, b64Decode, c1, c2, c3, c4, if_neg n3, if_neg n4,
        Option.bind_eq_bind, Option.some_bind, ih hrest, pure, Option.some.injEq,
        List.cons.injEq]
      refine ⟨by omega, by omega, by omega, trivial⟩

/-! ### Round-trip lemmas -/

theorem hexVal_hexDigitChar_fin : ∀ n : Fin 16, hexVal (hexDigitChar n.val) = some n.val := by
  decide

theorem hexVal_hexDigitChar {n : Nat} (h : n < 16) : hexVal (hexDigitChar n) = some n :=
  hexVal_hexDigitChar_fin ⟨n, h⟩

theorem natDigits_ne_nil : ∀ n : Nat, natDigits n ≠ [] := by
  intro n
  unfold natDigits
  split
  · simp
  · simp

theorem natDigits_all_digit : ∀ n : Nat, ∀ c ∈ natDigits n, isDigitChar c = true := by
  intro n
  induction n using natDigits.induct with
  | case1 n h =>
      intro c hc
      rw [natDigits, if_pos h] at hc
      simp at hc
      simp only [hc, isDigitChar, Bool.and_eq_true, decide_eq_true_eq]
      omega
  | case2 n h ih =>
      intro c hc
      rw [natDigits, if_neg h] at hc
      rcases List.mem_append.mp hc with h1 | h1
      · exact ih c h1
      · simp at h1
        simp only [h1, isDigitChar, Bool.and_eq_true, decide_eq_true_eq]
        omega

theorem digitsVal_append (ds : List Nat) (d : Nat) :
    digitsVal (ds ++ [d]) = digitsVal ds * 10 + (d - 48) := by
  simp [digitsVal, List.foldl_append]

theorem digitsVal_natDigits : ∀ n : Nat, digitsVal (natDigits n) = n := by
  intro n
  induction n using natDigits.induct with
  | case1 n h =>
      rw [natDigits, if_pos h]
      simp [digitsVal]
  | case2 n h ih =>
      rw [natDigits, if_neg h, digitsVal_append, ih]
      omega

theorem takeDigits_append : ∀ ds rest : List Nat, (∀ c ∈ ds, isDigitChar c = true) →
    noDigitHead rest = true → takeDigits (ds ++ rest) = (ds, rest) := by
  intro ds
  induction ds with
  | nil =>
      intro rest _ hrest
      cases rest with
      | nil => rfl
      | cons c r =>
          simp [noDigitHead] at hrest
          simp [takeDigits, hrest]
  | cons d ds ih =>
      intro rest hds hrest
      have hd : isDigitChar d = true := hds d (by simp)
      simp only [List.cons_append, takeDigits, hd, if_true, List.append_eq]
      rw [ih rest (fun c hc => hds c (by simp [hc])) hrest]

/-- Every serialized JSON value starts with a character that is not a
closing bracket, closing brace or comma. -/
theorem serJson_head : ∀ v : Json, ∃ c t, serJson v = c :: t ∧ c ≠ 93 ∧ c ≠ 125 ∧ c ≠ 44 := by
  intro v
  cases v with
  | null => exact ⟨110, _, rfl, by omega, by omega, by omega⟩
  | bool b => cases b with
      | true => exact ⟨116, _, rfl, by omega, by omega, by omega⟩
      | false => exact ⟨102, _, rfl, by omega, by omega, by omega⟩
  | num n =>
      show ∃ c t, serInt n = c :: t ∧ _
      unfold serInt
      split
      · exact ⟨45, _, rfl, by omega, by omega, by omega⟩
      · cases hnd : natDigits n.natAbs with
        | nil => exact absurd hnd (natDigits_ne_nil _)
        | cons d ds =>
            have hd : isDigitChar d = true := natDigits_all_digit _ d (by rw [hnd]; simp)
            simp [isDigitChar] at hd
            exact ⟨d, ds, rfl, by omega, by omega, by omega⟩
  | str s => exact ⟨34, _, rfl, by omega, by omega, by omega⟩
  | arr xs => cases xs with
      | nil => exact ⟨91, _, rfl, by omega, by omega, by omega⟩
      | cons x xs => exact ⟨91, _, rfl, by omega, by omega, by omega⟩
  | obj kvs => cases kvs with
      | nil => exact ⟨123, _, rfl, by omega, by omega, by omega⟩
      | cons kv kvs =>
          obtain ⟨k, v⟩ := kv
          exact ⟨123, _, rfl, by omega, by omega, by omega⟩

theorem noDigitHead_serArrTail (xs : List Json) (rest : List Nat) :
    noDigitHead (serArrTail xs ++ 93 :: rest) = true := by
  cases xs <;> simp [serArrTail, noDigitHead, isDigitChar]

theorem noDigitHead_serObjTail (kvs : List (List Nat × Json)) (rest : List Nat) :
    noDigitHead (serObjTail kvs ++ 125 :: rest) = true := by
  cases kvs with
  | nil => simp [serObjTail, noDigitHead, isDigitChar]
  | cons kv kvs =>
      obtain ⟨k, v⟩ := kv
      simp [serObjTail, noDigitHead, isDigitChar]

theorem jsonWFList_mem {xs : List Json} (h : jsonWFList xs = true) :
    ∀ x ∈ xs, jsonWF x = true := by
  induction xs with
  | nil => intro x hx; simp at hx
  | cons y ys ih =>
      rw [jsonWFList, Bool.and_eq_true] at h
      intro x hx
      rcases List.mem_cons.mp hx with h1 | h1
      · rw [h1]; exact h.1
      · exact ih h.2 x h1

theorem jsonWFObj_mem {kvs : List (List Nat × Json)} (h : jsonWFObj kvs = true) :
    ∀ kv ∈ kvs, wfStr kv.1 = true ∧ jsonWF kv.2 = true := by
  induction kvs with
  | nil => intro kv hkv; simp at hkv
  | cons p ps ih =>
      obtain ⟨k, v⟩ := p
      rw [jsonWFObj, Bool.and_eq_true, Bool.and_eq_true] at h
      intro kv hkv
      rcases List.mem_cons.mp hkv with h1 | h1
      · rw [h1]; exact ⟨h.1.1, h.1.2⟩
      · exact ih h.2 kv h1

theorem parseStrBody_quote (rest : List Nat) : parseStrBody (34 :: rest) = some ([], rest) := by
  rw [parseStrBody.eq_def]
  norm_num

theorem parseStrBody_esc (e r : Nat) (rest : List Nat)
    (h : (e, r) = (34, 34) ∨ (e, r) = (92, 92) ∨ (e, r) = (47, 47) ∨ (e, r) = (98, 8) ∨
         (e, r) = (116, 9) ∨ (e, r) = (110, 10) ∨ (e, r) = (102, 12) ∨ (e, r) = (114, 13)) :
    parseStrBody (92 :: e :: rest) = (parseStrBody rest).map fun p => (r :: p.1, p.2) := by
  rcases h with h | h | h | h | h | h | h | h <;>
    (injection h with h1 h2; subst h1; subst h2; rw [parseStrBody.eq_def]; norm_num)

theorem parseStrBody_uesc {h1 h2 h3 h4 v1 v2 v3 v4 : Nat} (rest : List Nat)
    (e1 : hexVal h1 = some v1) (e2 : hexVal h2 = some v2)
    (e3 : hexVal h3 = some v3) (e4 : hexVal h4 = some v4) :
    parseStrBody (92 :: 117 :: h1 :: h2 :: h3 :: h4 :: rest) =
      (parseStrBody rest).map fun p => ((v1 * 4096 + v2 * 256 + v3 * 16 + v4) :: p.1, p.2) := by
  rw [parseStrBody.eq_def]
  norm_num [e1, e2, e3, e4]
  cases parseStrBody rest with
  | none => rfl
  | some p => rfl

theorem parseStrBody_plain {c : Nat} (rest : List Nat) (h34 : c ≠ 34) (h92 : c ≠ 92) :
    parseStrBody (c :: rest) = (parseStrBody rest).map fun p => (c :: p.1, p.2) := by
  rw [parseStrBody.eq_def]
  simp [h34, h92]

theorem parse_uEscape {c : Nat} (hc : c < 65536) (tail : List Nat) :
    parseStrBody (uEscape c ++ tail) = (parseStrBody tail).map fun p => (c :: p.1, p.2) := by
  have e1 := hexVal_hexDigitChar (show c / 4096 % 16 < 16 by omega)
  have e2 := hexVal_hexDigitChar (show c / 256 % 16 < 16 by omega)
  have e3 := hexVal_hexDigitChar (show c / 16 % 16 < 16 by omega)
  have e4 := hexVal_hexDigitChar (show c % 16 < 16 by omega)
  rw [uEscape, List.cons_append, List.cons_append, List.cons_append, List.cons_append,
    List.cons_append, List.cons_append, List.nil_append,
    parseStrBody_uesc tail e1 e2 e3 e4]
  have : c / 4096 % 16 * 4096 + c / 256 % 16 * 256 + c / 16 % 16 * 16 + c % 16 = c := by
    omega
  rw [this]

theorem parseStrBody_ser : ∀ s : List Nat, wfStr s = true → ∀ rest : List Nat,
    parseStrBody (serStrBody s ++ 34 :: rest) = some (s, rest) := by
  intro s
  induction s with
  | nil =>
      intro _ rest
      rw [serStrBody, List.nil_append, parseStrBody_quote]
  | cons c s ih =>
      intro hwf rest
      rw [wfStr, Bool.and_eq_true] at hwf
      have hcw : wfChar c = true := hwf.1
      have HT := ih hwf.2 rest
      rw [serStrBody, List.append_assoc]
      by_cases h34 : c = 34
      · subst h34
        rw [show escapeChar 34 = [92, 34] from rfl, List.cons_append, List.cons_append,
          List.nil_append, parseStrBody_esc 34 34 _ (by norm_num), HT]
        rfl
      by_cases h92 : c = 92
      · subst h92
        rw [show escapeChar 92 = [92, 92] from rfl, List.cons_append, List.cons_append,
          List.nil_append, parseStrBody_esc 92 92 _ (by norm_num), HT]
        rfl
      by_cases h8 : c = 8
      · subst h8
        rw [show escapeChar 8 = [92, 98] from rfl, List.cons_append, List.cons_append,
          List.nil_append, parseStrBody_esc 98 8 _ (by norm_num), HT]
        rfl
      by_cases h9 : c = 9
      · subst h9
        rw [show escapeChar 9 = [92, 116] from rfl, List.cons_append, List.cons_append,
          List.nil_append, parseStrBody_esc 116 9 _ (by norm_num), HT]
        rfl
      by_cases h10 : c = 10
      · subst h10
        rw [show escapeChar 10 = [92, 110] from rfl, List.cons_append, List.cons_append,
          List.nil_append, parseStrBody_esc 110 10 _ (by norm_num), HT]
        rfl
      by_cases h12 : c = 12
      · subst h12
        rw [show escapeChar 12 = [92, 102] from rfl, List.cons_append, List.cons_append,
          List.nil_append, parseStrBody_esc 102 12 _ (by norm_num), HT]
        rfl
      by_cases h13 : c = 13
      · subst h13
        rw [show escapeChar 13 = [92, 114] from rfl, List.cons_append, List.cons_append,
          List.nil_append, parseStrBody_esc 114 13 _ (by norm_num), HT]
        rfl
      by_cases hlt32 : c < 32
      · rw [escapeChar, if_neg h34, if_neg h92, if_neg h8, if_neg h9, if_neg h10,
          if_neg h12, if_neg h13, if_pos hlt32]
        rw [parse_uEscape (by omega), HT]
        rfl
      by_cases hlt127 : c < 127
      · rw [escapeChar, if_neg h34, if_neg h92, if_neg h8, if_neg h9, if_neg h10,
          if_neg h12, if_neg h13, if_neg hlt32, if_pos hlt127]
        rw [List.cons_append, List.nil_append, parseStrBody_plain _ h34 h92, HT]
        rfl
      · have hbig : c < 65536 := by
          simp only [wfChar, Bool.or_eq_true, Bool.and_eq_true, decide_eq_true_eq] at hcw
          omega
        rw [escapeChar, if_neg h34, if_neg h92, if_neg h8, if_neg h9, if_neg h10,
          if_neg h12, if_neg h13, if_neg hlt32, if_neg hlt127,
          Nat.mod_eq_of_lt hbig, parse_uEscape hbig, HT]
        rfl

/-- One-step unfolding of `parseVal` on a non-empty input. -/
theorem parseVal_cons (fuel : Nat) (c : Nat) (rest : List Nat) :
    parseVal (fuel + 1) (c :: rest) =
      (if c = 110 then
        match rest with
        | 117 :: 108 :: 108 :: r => some (Json.null, r)
        | _ => none
      else if c = 116 then
        match rest with
        | 114 :: 117 :: 101 :: r => some (Json.bool true, r)
        | _ => none
      else if c = 102 then
        match rest with
        | 97 :: 108 :: 115 :: 101 :: r => some (Json.bool false, r)
        | _ => none
      else if c = 34 then (parseStrBody rest).map fun p => (Json.str p.1, p.2)
      else if c = 91 then
        match rest with
        | [] => none
        | c2 :: rest2 =>
            if c2 = 93 then some (Json.arr [], rest2)
            else do
              let p1 ← parseVal fuel (c2 :: rest2)
              let p2 ← parseArrTail fuel p1.2
              pure (Json.arr (p1.1 :: p2.1), p2.2)
      else if c = 123 then
        match rest with
        | [] => none
        | c2 :: rest2 =>
            if c2 = 125 then some (Json.obj [], rest2)
            else if c2 = 34 then do
              let pk ← parseStrBody rest2
              match pk.2 with
              | 58 :: 32 :: s2 => do
                  let pv ← parseVal fuel s2
                  let pr ← parseObjTail fuel pv.2
                  pure (Json.obj ((pk.1, pv.1) :: pr.1), pr.2)
              | _ => none
            else none
      else if c = 45 then
        match takeDigits rest with
        | ([], _) => none
        | (ds, rest2) => some (Json.num (-(digitsVal ds : Int)), rest2)
      else if isDigitChar c then
        match takeDigits (c :: rest) with
        | (ds, rest2) => some (Json.num (digitsVal ds : Int), rest2)
      else none) := rfl

theorem parseVal_digit {c : Nat} {ds rest2 : List Nat} (fuel : Nat) (rest : List Nat)
    (hd : isDigitChar c = true) (ht : takeDigits (c :: rest) = (ds, rest2)) :
    parseVal (fuel + 1) (c :: rest) = some (.num (digitsVal ds : Int), rest2) := by
  have hb : 48 ≤ c ∧ c ≤ 57 := by
    simp only [isDigitChar, Bool.and_eq_true, decide_eq_true_eq] at hd
    exact hd
  rw [parseVal_cons, if_neg (by omega), if_neg (by omega), if_neg (by omega),
    if_neg (by omega), if_neg (by omega), if_neg (by omega), if_neg (by omega),
    if_pos hd, ht]

theorem parseVal_minus {ds rest2 : List Nat} (fuel : Nat) (rest : List Nat)
    (hne : ds ≠ []) (ht : takeDigits rest = (ds, rest2)) :
    parseVal (fuel + 1) (45 :: rest) = some (.num (-(digitsVal ds : Int)), rest2) := by
  rw [show parseVal (fuel + 1) (45 :: rest) =
      (match takeDigits rest with
       | ([], _) => none
       | (ds, rest2) => some (Json.num (-(digitsVal ds : Int)), rest2)) from rfl, ht]
  cases ds with
  | nil => exact absurd rfl hne
  | cons d ds => rfl

theorem parseArrTail_ser (xs : List Json)
    (hP : ∀ x ∈ xs, ∀ fuel rest, (serJson x).length ≤ fuel → noDigitHead rest = true →
      parseVal fuel (serJson x ++ rest) = some (x, rest)) :
    ∀ fuel rest, (serArrTail xs).length + 1 ≤ fuel →
      parseArrTail fuel (serArrTail xs ++ 93 :: rest) = some (xs, rest) := by
  induction xs with
  | nil =>
      intro fuel rest hf
      cases fuel with
      | zero => omega
      | succ f => rfl
  | cons x xs ih =>
      intro fuel rest hf
      rw [serArrTail, List.length_cons, List.length_cons, List.length_append] at hf
      cases fuel with
      | zero => omega
      | succ f =>
          rw [serArrTail, List.cons_append, List.cons_append, List.append_assoc]
          rw [show ∀ g S, parseArrTail (g + 1) (44 :: 32 :: S) =
              (parseVal g S).bind fun p1 => (parseArrTail g p1.2).bind fun p2 =>
                some (p1.1 :: p2.1, p2.2) from fun g S => rfl]
          rw [hP x (by simp) f _ (by omega) (noDigitHead_serArrTail xs rest)]
          rw [Option.some_bind]
          rw [ih (fun y hy => hP y (by simp [hy])) f rest (by omega)]
          rfl

theorem parseObjTail_ser (kvs : List (List Nat × Json))
    (hK : ∀ kv ∈ kvs, wfStr kv.1 = true)
    (hP : ∀ kv ∈ kvs, ∀ fuel rest, (serJson kv.2).length ≤ fuel → noDigitHead rest = true →
      parseVal fuel (serJson kv.2 ++ rest) = some (kv.2, rest)) :
    ∀ fuel rest, (serObjTail kvs).length + 1 ≤ fuel →
      parseObjTail fuel (serObjTail kvs ++ 125 :: rest) = some (kvs, rest) := by
  induction kvs with
  | nil =>
      intro fuel rest hf
      cases fuel with
      | zero => omega
      | succ f => rfl
  | cons kv kvs ih =>
      obtain ⟨k, v⟩ := kv
      intro fuel rest hf
      rw [serObjTail, List.length_cons, List.length_cons, List.length_append] at hf
      cases fuel with
      | zero => omega
      | succ f =>
          rw [serObjTail, serStr]
          rw [show (44 :: 32 :: (((34 :: (serStrBody k ++ [34])) ++
                58 :: 32 :: serJson v ++ serObjTail kvs)) ++ 125 :: rest) =
              (44 :: 32 :: 34 :: (serStrBody k ++
                34 :: (58 :: 32 :: (serJson v ++ (serObjTail kvs ++ 125 :: rest))))) by
            simp]
          rw [show ∀ g S, parseObjTail (g + 1) (44 :: 32 :: 34 :: S) =
              (parseStrBody S).bind fun pk =>
                (match pk.2 with
                 | 58 :: 32 :: s2 =>
                     (parseVal g s2).bind fun pv => (parseObjTail g pv.2).bind fun pr =>
                       some ((pk.1, pv.1) :: pr.1, pr.2)
                 | _ => none) from fun g S => rfl]
          rw [parseStrBody_ser k (hK (k, v) (by simp)) _, Option.some_bind]
          have hlen : (serStr k).length = (serStrBody k).length + 2 := by
            rw [serStr]; simp
          rw [show ((k, 58 :: 32 :: (serJson v ++ (serObjTail kvs ++ 125 :: rest))).2) =
            (58 :: 32 :: (serJson v ++ (serObjTail kvs ++ 125 :: rest))) from rfl]
          rw [show (match (58 :: 32 :: (serJson v ++ (serObjTail kvs ++ 125 :: rest)) :
                List Nat) with
              | 58 :: 32 :: s2 =>
                  (parseVal f s2).bind fun pv => (parseObjTail f pv.2).bind fun pr =>
                    some (((k, 58 :: 32 :: (serJson v ++ (serObjTail kvs ++ 125 :: rest))).1,
                      pv.1) :: pr.1, pr.2)
              | _ => none) =
              ((parseVal f (serJson v ++ (serObjTail kvs ++ 125 :: rest))).bind fun pv =>
                (parseObjTail f pv.2).bind fun pr =>
                  some ((k, pv.1) :: pr.1, pr.2)) from rfl]
          rw [hP (k, v) (by simp) f _ (by simp at hf ⊢; omega)
            (noDigitHead_serObjTail kvs rest), Option.some_bind]
          rw [ih (fun y hy => hK y (by simp [hy])) (fun y hy => hP y (by simp [hy]))
            f rest (by simp at hf ⊢; omega)]
          rfl

/-- One-step unfolding of `parseVal` at the start of a non-empty object. -/
theorem parseVal_obj_step (g : Nat) (S : List Nat) :
    parseVal (g + 1) (123 :: 34 :: S) =
      (parseStrBody S).bind fun pk =>
        (match pk.2 with
         | 58 :: 32 :: s2 =>
             (parseVal g s2).bind fun pv => (parseObjTail g pv.2).bind fun pr =>
               some (Json.obj ((pk.1, pv.1) :: pr.1), pr.2)
         | _ => none) := rfl

theorem parseVal_obj_entry {S k rest1 : List Nat} (g : Nat)
    (hk : parseStrBody S = some (k, 58 :: 32 :: rest1)) :
    parseVal (g + 1) (123 :: 34 :: S) =
      (parseVal g rest1).bind fun pv => (parseObjTail g pv.2).bind fun pr =>
        some (Json.obj ((k, pv.1) :: pr.1), pr.2) := by
  rw [parseVal_obj_step, hk]
  rfl

theorem parseVal_ser_aux : ∀ n : Nat, ∀ v : Json, sizeOf v ≤ n → jsonWF v = true →
    ∀ fuel rest, (serJson v).length ≤ fuel → noDigitHead rest = true →
    parseVal fuel (serJson v ++ rest) = some (v, rest) := by
  intro n
  induction n with
  | zero =>
      intro v hv
      exfalso
      cases v <;> simp at hv
  | succ n ihn =>
      intro v hsz hwf fuel rest hfuel hnd
      cases v with
      | null =>
          rw [show serJson .null = [110, 117, 108, 108] from rfl] at hfuel ⊢
          cases fuel with
          | zero => simp at hfuel
          | succ f => rfl
      | bool b =>
          cases b with
          | true =>
              rw [show serJson (.bool true) = [116, 114, 117, 101] from rfl] at hfuel ⊢
              cases fuel with
              | zero => simp at hfuel
              | succ f => rfl
          | false =>
              rw [show serJson (.bool false) = [102, 97, 108, 115, 101] from rfl] at hfuel ⊢
              cases fuel with
              | zero => simp at hfuel
              | succ f => rfl
      | num m =>
          rw [show serJson (.num m) = serInt m from rfl] at hfuel ⊢
          rw [serInt] at hfuel ⊢
          by_cases hneg : m < 0
          · rw [if_pos hneg] at hfuel ⊢
            cases fuel with
            | zero => simp at hfuel
            | succ f =>
                rw [List.cons_append]
                have ht := takeDigits_append (natDigits m.natAbs) rest
                  (natDigits_all_digit _) hnd
                rw [parseVal_minus f _ (natDigits_ne_nil _) ht, digitsVal_natDigits]
                have hm : -((m.natAbs : Nat) : Int) = m := by omega
                rw [hm]
          · rw [if_neg hneg] at hfuel ⊢
            cases hnd2 : natDigits m.natAbs with
            | nil => exact absurd hnd2 (natDigits_ne_nil _)
            | cons d ds =>
                cases fuel with
                | zero => simp [hnd2] at hfuel
                | succ f =>
                    rw [List.cons_append]
                    have hdd : isDigitChar d = true :=
                      natDigits_all_digit _ d (by rw [hnd2]; simp)
                    have ht : takeDigits (d :: (ds ++ rest)) = (d :: ds, rest) := by
                      have h9 := takeDigits_append (d :: ds) rest
                        (by rw [← hnd2]; exact natDigits_all_digit _) hnd
                      simpa using h9
                    rw [parseVal_digit f _ hdd ht, ← hnd2, digitsVal_natDigits]
                    have hm : ((m.natAbs : Nat) : Int) = m := by omega
                    rw [hm]
      | str s =>
          rw [show serJson (.str s) = serStr s from rfl] at hfuel ⊢
          rw [serStr] at hfuel ⊢
          cases fuel with
          | zero => simp at hfuel
          | succ f =>
              rw [List.cons_append, List.append_assoc, List.singleton_append,
                parseVal_cons]
              norm_num
              rw [parseStrBody_ser s (by simpa [jsonWF] using hwf) rest]
      | arr xs =>
          cases xs with
          | nil =>
              rw [show serJson (.arr []) = [91, 93] from rfl] at hfuel ⊢
              cases fuel with
              | zero => simp at hfuel
              | succ f => rfl
          | cons x xs =>
              rw [show serJson (.arr (x :: xs)) =
                91 :: (serJson x ++ serArrTail xs ++ [93]) from rfl] at hfuel ⊢
              have hszx : sizeOf x ≤ n := by
                have h1 : sizeOf x < sizeOf (x :: xs) := List.sizeOf_lt_of_mem (by simp)
                have h2 : sizeOf (Json.arr (x :: xs)) = 1 + sizeOf (x :: xs) := by simp
                omega
              have hszxs : ∀ y ∈ xs, sizeOf y ≤ n := by
                intro y hy
                have h1 : sizeOf y < sizeOf (x :: xs) :=
                  List.sizeOf_lt_of_mem (by simp [hy])
                have h2 : sizeOf (Json.arr (x :: xs)) = 1 + sizeOf (x :: xs) := by simp
                omega
              have hwx : jsonWF x = true ∧ ∀ y ∈ xs, jsonWF y = true := by
                have h3 : jsonWFList (x :: xs) = true := by simpa [jsonWF] using hwf
                rw [jsonWFList, Bool.and_eq_true] at h3
                exact ⟨h3.1, jsonWFList_mem h3.2⟩
              simp only [List.length_cons, List.length_append, List.length_singleton]
                at hfuel
              cases fuel with
              | zero => omega
              | succ f =>
                  rw [List.cons_append, List.append_assoc, List.append_assoc,
                    List.singleton_append]
                  obtain ⟨cx, tx, hsx, hne93, _, _⟩ := serJson_head x
                  rw [hsx, List.cons_append, parseVal_cons]
                  norm_num
                  rw [if_neg hne93, ← List.cons_append, ← hsx]
                  rw [ihn x hszx hwx.1 f _ (by omega)
                    (noDigitHead_serArrTail xs rest), Option.some_bind]
                  rw [parseArrTail_ser xs
                    (fun y hy => ihn y (hszxs y hy) (hwx.2 y hy)) f rest (by omega)]
                  rfl
      | obj kvs =>
          cases kvs with
          | nil =>
              rw [show serJson (.obj []) = [123, 125] from rfl] at hfuel ⊢
              cases fuel with
              | zero => simp at hfuel
              | succ f => rfl
          | cons kv kvs =>
              obtain ⟨k, v⟩ := kv
              rw [show serJson (.obj ((k, v) :: kvs)) =
                123 :: (serStr k ++ 58 :: 32 :: serJson v ++ serObjTail kvs ++ [125])
                from rfl] at hfuel ⊢
              have hszv : sizeOf v ≤ n := by
                have h1 : sizeOf (k, v) < sizeOf ((k, v) :: kvs) :=
                  List.sizeOf_lt_of_mem (by simp)
                have h2 : sizeOf (Json.obj ((k, v) :: kvs)) =
                    1 + sizeOf ((k, v) :: kvs) := by simp
                have h3 : sizeOf (k, v) = 1 + sizeOf k + sizeOf v := by simp
                omega
              have hszkvs : ∀ y ∈ kvs, sizeOf y.2 ≤ n := by
                intro y hy
                have h1 : sizeOf y < sizeOf ((k, v) :: kvs) :=
                  List.sizeOf_lt_of_mem (by simp [hy])
                have h2 : sizeOf (Json.obj ((k, v) :: kvs)) =
                    1 + sizeOf ((k, v) :: kvs) := by simp
                have h3 : sizeOf y.2 < sizeOf y := by
                  obtain ⟨a, b⟩ := y
                  simp
                omega
              have hwv : wfStr k = true ∧ jsonWF v = true ∧ jsonWFObj kvs = true := by
                have h3 : jsonWFObj ((k, v) :: kvs) = true := by
                  rw [jsonWF, Bool.and_eq_true] at hwf
                  exact hwf.2
                rw [jsonWFObj, Bool.and_eq_true, Bool.and_eq_true] at h3
                exact ⟨h3.1.1, h3.1.2, h3.2⟩
              rw [serStr] at hfuel ⊢
              simp only [List.length_cons, List.length_append, List.length_singleton]
                at hfuel
              cases fuel with
              | zero => omega
              | succ f =>
                  rw [show (123 :: ((34 :: (serStrBody k ++ [34])) ++
                        58 :: 32 :: serJson v ++ serObjTail kvs ++ [125])) ++ rest =
                      123 :: 34 :: (serStrBody k ++
                        34 :: (58 :: 32 :: (serJson v ++ (serObjTail kvs ++ 125 :: rest))))
                      by simp]
                  rw [parseVal_obj_entry f (parseStrBody_ser k hwv.1 _)]
                  rw [ihn v hszv hwv.2.1 f _ (by omega)
                    (noDigitHead_serObjTail kvs rest), Option.some_bind]
                  rw [parseObjTail_ser kvs
                    (fun y hy => (jsonWFObj_mem hwv.2.2 y hy).1)
                    (fun y hy => ihn y.2 (hszkvs y hy) ((jsonWFObj_mem hwv.2.2 y hy).2))
                    f rest (by omega)]
                  rfl

theorem jsonLoads_serJson {v : Json} (h : jsonWF v = true) :
    jsonLoads (serJson v) = some v := by
  have h1 := parseVal_ser_aux (sizeOf v) v le_rfl h ((serJson v).length + 1) []
    (by omega) rfl
  rw [List.append_nil] at h1
  rw [jsonLoads, h1]

theorem hexDigitChar_lt (n : Nat) (h : n < 16) : hexDigitChar n < 256 := by
  rw [hexDigitChar]
  split <;> omega

theorem escapeChar_lt {c : Nat} (_h : wfChar c = true) : ∀ x ∈ escapeChar c, x < 256 := by
  intro x hx
  rw [escapeChar] at hx
  split at hx
  · simp at hx; omega
  · split at hx
    · simp at hx; omega
    · split at hx
      · simp at hx; omega
      · split at hx
        · simp at hx; omega
        · split at hx
          · simp at hx; omega
          · split at hx
            · simp at hx; omega
            · split at hx
              · simp at hx; omega
              · split at hx
                · simp only [uEscape] at hx
                  have g1 := hexDigitChar_lt (c / 4096 % 16) (by omega)
                  have g2 := hexDigitChar_lt (c / 256 % 16) (by omega)
                  have g3 := hexDigitChar_lt (c / 16 % 16) (by omega)
                  have g4 := hexDigitChar_lt (c % 16) (by omega)
                  simp at hx
                  rcases hx with h1 | h1 | h1 | h1 | h1 | h1 <;> omega
                · split at hx
                  · simp at hx; omega
                  · simp only [uEscape] at hx
                    have g1 := hexDigitChar_lt (c % 65536 / 4096 % 16) (by omega)
                    have g2 := hexDigitChar_lt (c % 65536 / 256 % 16) (by omega)
                    have g3 := hexDigitChar_lt (c % 65536 / 16 % 16) (by omega)
                    have g4 := hexDigitChar_lt (c % 65536 % 16) (by omega)
                    simp at hx
                    rcases hx with h1 | h1 | h1 | h1 | h1 | h1 <;> omega

theorem serStrBody_lt : ∀ s : List Nat, wfStr s = true → ∀ x ∈ serStrBody s, x < 256 := by
  intro s
  induction s with
  | nil => intro _ x hx; simp [serStrBody] at hx
  | cons c s ih =>
      intro hwf x hx
      rw [wfStr, Bool.and_eq_true] at hwf
      rw [serStrBody] at hx
      rcases List.mem_append.mp hx with h1 | h1
      · exact escapeChar_lt hwf.1 x h1
      · exact ih hwf.2 x h1

theorem serStr_lt {k : List Nat} (h : wfStr k = true) : ∀ x ∈ serStr k, x < 256 := by
  intro x hx
  rw [serStr] at hx
  rcases List.mem_cons.mp hx with h1 | h1
  · omega
  · rcases List.mem_append.mp h1 with h2 | h2
    · exact serStrBody_lt k h x h2
    · simp at h2; omega

theorem serInt_lt (n : Int) : ∀ x ∈ serInt n, x < 256 := by
  intro x hx
  rw [serInt] at hx
  have hd : ∀ y ∈ natDigits n.natAbs, y < 256 := by
    intro y hy
    have := natDigits_all_digit _ y hy
    simp only [isDigitChar, Bool.and_eq_true, decide_eq_true_eq] at this
    omega
  split at hx
  · rcases List.mem_cons.mp hx with h1 | h1
    · omega
    · exact hd x h1
  · exact hd x hx

theorem serArrTail_lt (xs : List Json)
    (hP : ∀ y ∈ xs, ∀ x ∈ serJson y, x < 256) : ∀ x ∈ serArrTail xs, x < 256 := by
  induction xs with
  | nil => intro x hx; simp [serArrTail] at hx
  | cons y ys ih =>
      intro x hx
      rw [serArrTail] at hx
      rcases List.mem_cons.mp hx with h1 | h1
      · omega
      rcases List.mem_cons.mp h1 with h2 | h2
      · omega
      rcases List.mem_append.mp h2 with h3 | h3
      · exact hP y (by simp) x h3
      · exact ih (fun z hz => hP z (by simp [hz])) x h3

theorem serObjTail_lt (kvs : List (List Nat × Json))
    (hK : ∀ kv ∈ kvs, wfStr kv.1 = true)
    (hP : ∀ kv ∈ kvs, ∀ x ∈ serJson kv.2, x < 256) : ∀ x ∈ serObjTail kvs, x < 256 := by
  induction kvs with
  | nil => intro x hx; simp [serObjTail] at hx
  | cons kv kvs ih =>
      obtain ⟨k, v⟩ := kv
      intro x hx
      rw [serObjTail] at hx
      rcases List.mem_cons.mp hx with h1 | h1
      · omega
      rcases List.mem_cons.mp h1 with h2 | h2
      · omega
      rcases List.mem_append.mp h2 with h3 | h3
      · rcases List.mem_append.mp h3 with h4 | h4
        · exact serStr_lt (hK (k, v) (by simp)) x h4
        rcases List.mem_cons.mp h4 with h5 | h5
        · omega
        rcases List.mem_cons.mp h5 with h6 | h6
        · omega
        · exact hP (k, v) (by simp) x h6
      · exact ih (fun z hz => hK z (by simp [hz])) (fun z hz => hP z (by simp [hz])) x h3

theorem serJson_lt_aux : ∀ n : Nat, ∀ v : Json, sizeOf v ≤ n → jsonWF v = true →
    ∀ x ∈ serJson v, x < 256 := by
  intro n
  induction n with
  | zero =>
      intro v hv
      exfalso
      cases v <;> simp at hv
  | succ n ihn =>
      intro v hsz hwf x hx
      cases v with
      | null =>
          rw [show serJson .null = [110, 117, 108, 108] from rfl] at hx
          simp at hx; omega
      | bool b =>
          cases b with
          | true =>
              rw [show serJson (.bool true) = [116, 114, 117, 101] from rfl] at hx
              simp at hx; omega
          | false =>
              rw [show serJson (.bool false) = [102, 97, 108, 115, 101] from rfl] at hx
              simp at hx; omega
      | num m => exact serInt_lt m x hx
      | str s => exact serStr_lt (by simpa [jsonWF] using hwf) x hx
      | arr xs =>
          cases xs with
          | nil =>
              rw [show serJson (.arr []) = [91, 93] from rfl] at hx
              simp at hx; omega
          | cons y ys =>
              have hsy : ∀ z ∈ y :: ys, sizeOf z ≤ n := by
                intro z hz
                have h1 : sizeOf z < sizeOf (y :: ys) := List.sizeOf_lt_of_mem hz
                have h2 : sizeOf (Json.arr (y :: ys)) = 1 + sizeOf (y :: ys) := by simp
                omega
              have hwy : ∀ z ∈ y :: ys, jsonWF z = true :=
                jsonWFList_mem (by simpa [jsonWF] using hwf)
              rw [show serJson (.arr (y :: ys)) =
                91 :: (serJson y ++ serArrTail ys ++ [93]) from rfl] at hx
              rcases List.mem_cons.mp hx with h1 | h1
              · omega
              rcases List.mem_append.mp h1 with h2 | h2
              · rcases List.mem_append.mp h2 with h3 | h3
                · exact ihn y (hsy y (by simp)) (hwy y (by simp)) x h3
                · exact serArrTail_lt ys
                    (fun z hz => ihn z (hsy z (by simp [hz])) (hwy z (by simp [hz]))) x h3
              · simp at h2; omega
      | obj kvs =>
          cases kvs with
          | nil =>
              rw [show serJson (.obj []) = [123, 125] from rfl] at hx
              simp at hx; omega
          | cons kv kvs =>
              obtain ⟨k, v⟩ := kv
              have hsy : ∀ z ∈ (k, v) :: kvs, sizeOf z.2 ≤ n := by
                intro z hz
                have h1 : sizeOf z < sizeOf ((k, v) :: kvs) := List.sizeOf_lt_of_mem hz
                have h2 : sizeOf (Json.obj ((k, v) :: kvs)) =
                    1 + sizeOf ((k, v) :: kvs) := by simp
                have h3 : sizeOf z.2 < sizeOf z := by
                  obtain ⟨a, b⟩ := z
                  simp
                omega
              have hwy : ∀ z ∈ (k, v) :: kvs, wfStr z.1 = true ∧ jsonWF z.2 = true :=
                jsonWFObj_mem (by
                  rw [jsonWF, Bool.and_eq_true] at hwf
                  exact hwf.2)
              rw [show serJson (.obj ((k, v) :: kvs)) =
                123 :: (serStr k ++ 58 :: 32 :: serJson v ++ serObjTail kvs ++ [125])
                from rfl] at hx
              rcases List.mem_cons.mp hx with h1 | h1
              · omega
              rcases List.mem_append.mp h1 with h2 | h2
              · rcases List.mem_append.mp h2 with h3 | h3
                · rcases List.mem_append.mp h3 with h4 | h4
                  · exact serStr_lt ((hwy (k, v) (by simp)).1) x h4
                  rcases List.mem_cons.mp h4 with h5 | h5
                  · omega
                  rcases List.mem_cons.mp h5 with h6 | h6
                  · omega
                  · exact ihn v (hsy (k, v) (by simp)) ((hwy (k, v) (by simp)).2) x h6
                · exact serObjTail_lt kvs
                    (fun z hz => (hwy z (by simp [hz])).1)
                    (fun z hz => ihn z.2 (hsy z (by simp [hz])) ((hwy z (by simp [hz])).2))
                    x h3
              · simp at h2; omega

theorem serJson_lt {v : Json} (h : jsonWF v = true) : ∀ x ∈ serJson v, x < 256 :=
  serJson_lt_aux (sizeOf v) v le_rfl h

/-! ### Helper lemmas about the operator embedding -/

theorem deleteNsIfExists_subset {st : Store} {ns x : String}
    (h : x ∈ (deleteNsIfExists st ns).1.namespaces) : x ∈ st.namespaces := by
  rw [deleteNsIfExists] at h
  split at h
  · exact List.mem_of_mem_erase (by simpa using h)
  · exact h

theorem deleteNsIfExists_preserved {st : Store} {ns x : String}
    (hne : x ≠ ns) (h : x ∈ st.namespaces) :
    x ∈ (deleteNsIfExists st ns).1.namespaces := by
  rw [deleteNsIfExists]
  split
  · simpa using (List.mem_erase_of_ne hne).mpr h
  · exact h

theorem deleteNsIfExists_nodup {st : Store} {ns : String}
    (h : st.namespaces.Nodup) : (deleteNsIfExists st ns).1.namespaces.Nodup := by
  rw [deleteNsIfExists]
  split
  · simpa using h.erase ns
  · exact h

theorem deleteNsIfExists_deletes {st : Store} {ns : String}
    (h : st.namespaces.Nodup) : ns ∉ (deleteNsIfExists st ns).1.namespaces := by
  rw [deleteNsIfExists]
  split
  · simpa using h.not_mem_erase
  · rename_i hmem
    exact hmem

theorem uninstallNamespaceLoop_nomatch (ops : List String) (name resolved : String)
    (st : Store) (h : ∀ op ∈ ops, pyStartsWith op name = false) :
    uninstallNamespaceLoop ops name resolved st = (st, []) := by
  induction ops with
  | nil => rfl
  | cons op rest ih =>
      rw [uninstallNamespaceLoop]
      rw [if_neg (by simp [h op (by simp)])]
      exact ih (fun o ho => h o (by simp [ho]))

theorem uninstallNamespaceLoop_subset (ops : List String) (name resolved : String) :
    ∀ st : Store, ∀ ns, ns ∈ (uninstallNamespaceLoop ops name resolved st).1.namespaces →
      ns ∈ st.namespaces := by
  induction ops with
  | nil => intro st ns h; exact h
  | cons op rest ih =>
      intro st ns h
      by_cases hm : pyStartsWith op name = true
      · rw [uninstallNamespaceLoop, if_pos hm] at h
        exact deleteNsIfExists_subset (ih _ ns h)
      · rw [uninstallNamespaceLoop, if_neg hm] at h
        exact ih _ ns h

theorem uninstallNamespaceLoop_preserved (ops : List String) (name resolved : String) :
    ∀ st : Store, ∀ ns, ns ≠ pyOr resolved ((name.splitOn ".").getLastD "") →
      ns ∈ st.namespaces →
      ns ∈ (uninstallNamespaceLoop ops name resolved st).1.namespaces := by
  induction ops with
  | nil => intro st ns _ h; exact h
  | cons op rest ih =>
      intro st ns hne h
      by_cases hm : pyStartsWith op name = true
      · rw [uninstallNamespaceLoop, if_pos hm]
        exact ih _ ns hne (deleteNsIfExists_preserved hne h)
      · rw [uninstallNamespaceLoop, if_neg hm]
        exact ih _ ns hne h

theorem uninstallNamespaceLoop_deletes (ops : List String) (name resolved : String) :
    ∀ st : Store, st.namespaces.Nodup →
      ((∃ op ∈ ops, pyStartsWith op name = true) ∨
        pyOr resolved ((name.splitOn ".").getLastD "") ∉ st.namespaces) →
      pyOr resolved ((name.splitOn ".").getLastD "") ∉
        (uninstallNamespaceLoop ops name resolved st).1.namespaces := by
  induction ops with
  | nil =>
      intro st _ h
      rcases h with h | h
      · obtain ⟨op, hop, _⟩ := h
        simp at hop
      · exact h
  | cons op rest ih =>
      intro st hnd h
      by_cases hm : pyStartsWith op name = true
      · rw [uninstallNamespaceLoop, if_pos hm]
        exact ih _ (deleteNsIfExists_nodup hnd) (Or.inr (deleteNsIfExists_deletes hnd))
      · rw [uninstallNamespaceLoop, if_neg hm]
        rcases h with h | h
        · obtain ⟨o, ho, hos⟩ := h
          rcases List.mem_cons.mp ho with h1 | h1
          · rw [h1] at hos; exact absurd hos (by simpa using hm)
          · exact ih _ hnd (Or.inl ⟨o, h1, hos⟩)
        · exact ih _ hnd (Or.inr h)

/-- The store reaching the namespace-deletion loop of `uninstall_operator`
keeps the original namespaces and operator records, and the loop determines
the final namespaces. -/
theorem uninstall_operator_store (store : Store) (name : String) (timeout : Nat)
    (opArg : Option String) (csvGone : Bool) :
    ∃ st' : Store,
      (uninstall_operator store name timeout opArg csvGone).2.1 =
        (uninstallNamespaceLoop store.operators name (strOr opArg name) st').1
      ∧ st'.namespaces = store.namespaces
      ∧ st'.operators = store.operators := by
  rw [uninstall_operator]
  cases hsub : lookupSub store.subscriptions (name, strOr opArg name) with
  | none =>
      by_cases hog : (name, strOr opArg name) ∈ store.operatorGroups
      · refine ⟨{ store with
          operatorGroups := store.operatorGroups.erase (name, strOr opArg name) },
          ?_, rfl, rfl⟩
        dsimp only
        rw [if_pos hog]
        rfl
      · refine ⟨store, ?_, rfl, rfl⟩
        dsimp only
        rw [if_neg hog]
        rfl
  | some installedCsv =>
      by_cases hog : (name, strOr opArg name) ∈ store.operatorGroups
      · refine ⟨{ store with
          subscriptions := removeSub store.subscriptions (name, strOr opArg name),
          operatorGroups := store.operatorGroups.erase (name, strOr opArg name) },
          ?_, rfl, rfl⟩
        dsimp only
        rw [if_pos hog]
        split <;> rfl
      · refine ⟨{ store with
          subscriptions := removeSub store.subscriptions (name, strOr opArg name) },
          ?_, rfl, rfl⟩
        dsimp only
        rw [if_neg hog]
        split <;> rfl

/-! ### Claim theorems -/

/-- C1: whenever `install_operator` is called with `iib_index_image` but
without `brew_token`, it fails with `ValueError` ("brew_token must be
provided for iib_index_image") and the remote store is returned exactly as
it was, with an empty mutation trace: no catalog source, ICSP, webhook
patch, pull-secret, namespace, operator group or subscription is created
or mutated. -/
theorem C1_install_requires_brew_token (env : ClusterEnv) (store : Store)
    (name channel : String) (source : Option String)
    (target_namespaces : Option (List String)) (timeout : Nat)
    (operator_namespace iib_index_image brew_token : Option String)
    (hiib : truthy iib_index_image = true) (hbrew : truthy brew_token = false) :
    install_operator env store name channel source target_namespaces timeout
        operator_namespace iib_index_image brew_token =
      (.error (.valueError "brew_token must be provided for iib_index_image"),
       store, []) := by
  rw [install_operator]
  rw [if_pos hiib, if_pos (by simp [hbrew])]

/-- Witness for C1 at a concrete call. -/
theorem C1_witness :
    install_operator quietEnv emptyStore "my-operator" "stable" none none
        TIMEOUT_30MIN none (some "registry-proxy.example.com/rh-osbs/iib:1") none =
      (.error (.valueError "brew_token must be provided for iib_index_image"),
       emptyStore, []) :=
  C1_install_requires_brew_token quietEnv emptyStore "my-operator" "stable" none none
    TIMEOUT_30MIN none (some "registry-proxy.example.com/rh-osbs/iib:1") none
    (by decide) (by decide)

/-- C2 counterexample: uninstalling `my-op` with the store `c2Store`.
The only operator record is `my-op.prod-ns`, a prefix match whose
`<name>.<namespace>` convention encodes the namespace `prod-ns`, and
`prod-ns` exists — yet the run deletes the namespace `my-op` (the
defaulted operator namespace) and leaves `prod-ns` untouched, refuting
the claim that the namespace recovered from the matching record is the
one deleted. -/
theorem C2_counterexample :
    "my-op.prod-ns" ∈ c2Store.operators
    ∧ pyStartsWith "my-op.prod-ns" "my-op" = true
    ∧ "prod-ns" ∈ c2Store.namespaces
    ∧ (uninstall_operator c2Store "my-op" TIMEOUT_30MIN none true).2.1.namespaces =
        ["prod-ns"]
    ∧ (uninstall_operator c2Store "my-op" TIMEOUT_30MIN none true).2.2 =
        [Effect.deleteNamespace "my-op"] := by
  refine ⟨by decide, by decide, by decide, ?_, ?_⟩ <;> rfl

/-- C2 (amended): during `uninstall_operator`, for every operator record
whose name starts with the target operator name, the namespace that gets
deleted is the resolved operator namespace — the `operator_namespace`
argument, defaulting to the target operator name — independent of the
matching record's `<name>.<namespace>` encoding; provided that namespace
exists it is deleted, and every other namespace survives. -/
theorem C2_uninstall_deletes_operator_namespace (store : Store) (name : String)
    (timeout : Nat) (opArg : Option String) (csvGone : Bool)
    (hnd : store.namespaces.Nodup)
    (hres : strOr opArg name ≠ "")
    (hmatch : ∃ op ∈ store.operators, pyStartsWith op name = true)
    (_hmem : strOr opArg name ∈ store.namespaces) :
    strOr opArg name ∉
      (uninstall_operator store name timeout opArg csvGone).2.1.namespaces
    ∧ ∀ ns ∈ store.namespaces, ns ≠ strOr opArg name →
        ns ∈ (uninstall_operator store name timeout opArg csvGone).2.1.namespaces := by
  obtain ⟨st', heq, hns, hops⟩ :=
    uninstall_operator_store store name timeout opArg csvGone
  have hpy : pyOr (strOr opArg name) ((name.splitOn ".").getLastD "") =
      strOr opArg name := by
    rw [pyOr, if_neg hres]
  constructor
  · rw [heq]
    have hd := uninstallNamespaceLoop_deletes store.operators name (strOr opArg name)
      st' (by rw [hns]; exact hnd) (Or.inl hmatch)
    rw [hpy] at hd
    exact hd
  · intro ns hmemns hne
    rw [heq]
    exact uninstallNamespaceLoop_preserved store.operators name (strOr opArg name)
      st' ns (by rw [hpy]; exact hne) (by rw [hns]; exact hmemns)

/-- Witness for the amended C2 at the concrete `c2Store` scenario. -/
theorem C2_amended_witness :
    "my-op" ∉ (uninstall_operator c2Store "my-op" TIMEOUT_30MIN none true).2.1.namespaces
    ∧ "prod-ns" ∈
        (uninstall_operator c2Store "my-op" TIMEOUT_30MIN none true).2.1.namespaces := by
  have h := C2_uninstall_deletes_operator_namespace c2Store "my-op" TIMEOUT_30MIN none
    true (by decide) (by decide)
    ⟨"my-op.prod-ns", by decide, by decide⟩ (by decide)
  exact ⟨h.1, h.2 "prod-ns" (by decide) (by decide)⟩

/-- C3: `uninstall_operator` on an operator that was never installed — no
subscription record for `(name, namespace)`, no operator group, no
operator record with the name as prefix — returns success, leaves the
store unchanged and performs no remote mutation and no CSV-removal wait
(empty effect trace). -/
theorem C3_uninstall_never_installed (store : Store) (name : String) (timeout : Nat)
    (opArg : Option String) (csvGone : Bool)
    (hsub : lookupSub store.subscriptions (name, strOr opArg name) = none)
    (hog : (name, strOr opArg name) ∉ store.operatorGroups)
    (hop : ∀ op ∈ store.operators, pyStartsWith op name = false) :
    uninstall_operator store name timeout opArg csvGone = (.ok (), store, []) := by
  rw [uninstall_operator]
  rw [hsub]
  dsimp only
  rw [if_neg hog]
  rw [uninstallNamespaceLoop_nomatch store.operators name (strOr opArg name) store hop]
  rfl

/-- Witness for C3 at a concrete never-installed operator. -/
theorem C3_witness :
    uninstall_operator c2Store "other-op" TIMEOUT_30MIN none false =
      (.ok (), c2Store, []) :=
  C3_uninstall_never_installed c2Store "other-op" TIMEOUT_30MIN none false
    (by decide) (by decide) (by decide)

theorem wait_for_install_plan_trace (env : ClusterEnv) (subName subNs : String)
    (timeout : Nat) :
    ∃ t, (wait_for_install_plan_from_subscription env subName subNs timeout).2 =
        .samplerWait "installplan" timeout 30 :: t
      ∧ ∀ e ∈ t, ∃ m, e = .logError m := by
  rw [wait_for_install_plan_from_subscription]
  cases firstSome (samplerAttempts timeout 30) env.installPlanRef with
  | some ip => exact ⟨[], rfl, by simp⟩
  | none =>
      refine ⟨[.logError ("Subscription: " ++ subName ++
        ", did not get updated with install plan")], rfl, ?_⟩
      intro e he
      rcases List.mem_singleton.mp he with h
      exact ⟨_, h⟩

theorem wait_for_csv_trace (env : ClusterEnv) (store : Store)
    (subName subNs : String) (timeout : Nat) :
    ∃ t, (wait_for_csv_successful_state env store subName subNs timeout).2 =
        .samplerWait "installedCSV" 30 1 :: t
      ∧ ∀ e ∈ t, e = .waitStatus "ClusterServiceVersion" "Succeeded" timeout := by
  rw [wait_for_csv_successful_state]
  cases firstSome (samplerAttempts 30 1) env.installedCSV with
  | none => exact ⟨[], rfl, by simp⟩
  | some csvName =>
      dsimp only
      cases hcsv : get_csv_by_name store csvName subNs with
      | error e => exact ⟨[], rfl, by simp⟩
      | ok c =>
          refine ⟨[.waitStatus "ClusterServiceVersion" "Succeeded" timeout], rfl, ?_⟩
          intro e he
          exact List.mem_singleton.mp he

/-- Every effect in a `wait_for_operator_install` trace is one of the
five wait/log effects the implementation can emit. -/
theorem wait_for_operator_install_members (env : ClusterEnv) (store : Store)
    (subName subNs : String) (timeout : Nat) :
    ∀ e ∈ (wait_for_operator_install env store subName subNs timeout).2,
      e = .samplerWait "installplan" TIMEOUT_5MIN 30 ∨ (∃ m, e = .logError m) ∨
      e = .waitStatus "InstallPlan" "Complete" timeout ∨
      e = .samplerWait "installedCSV" 30 1 ∨
      e = .waitStatus "ClusterServiceVersion" "Succeeded" TIMEOUT_10MIN := by
  obtain ⟨t1, ht1, ht1log⟩ :=
    wait_for_install_plan_trace env subName subNs TIMEOUT_5MIN
  rw [wait_for_operator_install]
  cases h1 : (wait_for_install_plan_from_subscription env subName subNs).1 with
  | error e0 =>
      rw [show wait_for_install_plan_from_subscription env subName subNs =
        wait_for_install_plan_from_subscription env subName subNs TIMEOUT_5MIN from rfl]
      rw [ht1]
      intro e he
      rcases List.mem_cons.mp he with h | h
      · exact Or.inl h
      · exact Or.inr (Or.inl (ht1log _ h))
  | ok ip =>
      obtain ⟨t3, ht3, ht3w⟩ :=
        wait_for_csv_trace env store subName subNs TIMEOUT_10MIN
      rw [show wait_for_install_plan_from_subscription env subName subNs =
        wait_for_install_plan_from_subscription env subName subNs TIMEOUT_5MIN from rfl]
      rw [ht1]
      dsimp only
      cases h2 : (wait_for_status "InstallPlan" "Complete" env.installPlanComplete
          timeout).1 with
      | error e0 =>
          rw [show (wait_for_status "InstallPlan" "Complete" env.installPlanComplete
            timeout).2 = [.waitStatus "InstallPlan" "Complete" timeout] from rfl]
          intro e he
          rcases List.mem_append.mp he with h | h
          · rcases List.mem_cons.mp h with h | h
            · exact Or.inl h
            · exact Or.inr (Or.inl (ht1log _ h))
          · exact Or.inr (Or.inr (Or.inl (List.mem_singleton.mp h)))
      | ok u =>
          rw [show (wait_for_status "InstallPlan" "Complete" env.installPlanComplete
            timeout).2 = [.waitStatus "InstallPlan" "Complete" timeout] from rfl]
          dsimp only
          rw [show wait_for_csv_successful_state env store subName subNs =
            wait_for_csv_successful_state env store subName subNs TIMEOUT_10MIN
            from rfl]
          rw [ht3]
          intro e he
          rcases List.mem_append.mp he with h | h
          · rcases List.mem_append.mp h with h | h
            · rcases List.mem_cons.mp h with h | h
              · exact Or.inl h
              · exact Or.inr (Or.inl (ht1log _ h))
            · exact Or.inr (Or.inr (Or.inl (List.mem_singleton.mp h)))
          · rcases List.mem_cons.mp h with h | h
            · exact Or.inr (Or.inr (Or.inr (Or.inl h)))
            · exact Or.inr (Or.inr (Or.inr (Or.inr (ht3w _ h))))

/-- The first effect of every `wait_for_operator_install` run is the
install-plan discovery wait with the fixed 5-minute/30-second policy. -/
theorem wait_for_operator_install_head (env : ClusterEnv) (store : Store)
    (subName subNs : String) (timeout : Nat) :
    (wait_for_operator_install env store subName subNs timeout).2.head? =
      some (.samplerWait "installplan" TIMEOUT_5MIN 30) := by
  obtain ⟨t1, ht1, _⟩ :=
    wait_for_install_plan_trace env subName subNs TIMEOUT_5MIN
  rw [wait_for_operator_install]
  cases h1 : (wait_for_install_plan_from_subscription env subName subNs).1 with
  | error e0 =>
      rw [show wait_for_install_plan_from_subscription env subName subNs =
        wait_for_install_plan_from_subscription env subName subNs TIMEOUT_5MIN from rfl]
      rw [ht1]
      rfl
  | ok ip =>
      rw [show wait_for_install_plan_from_subscription env subName subNs =
        wait_for_install_plan_from_subscription env subName subNs TIMEOUT_5MIN from rfl]
      rw [ht1]
      dsimp only
      cases h2 : (wait_for_status "InstallPlan" "Complete" env.installPlanComplete
          timeout).1 with
      | error e0 => rfl
      | ok u => rfl

/-- C7: `wait_for_install_plan_from_subscription` polls the subscription's
status with a 30-second sleep under the default 5-minute deadline; when an
install-plan reference appears it returns an `InstallPlan` handle whose
name is the referenced name and whose namespace is the subscription's; if
the deadline elapses with no reference it logs the last-seen subscription
state and fails with the timeout error. -/
theorem C7_wait_for_install_plan_policy (env : ClusterEnv) (subName subNs : String) :
    ((wait_for_install_plan_from_subscription env subName subNs).2.head? =
        some (.samplerWait "installplan" TIMEOUT_5MIN 30))
    ∧ (∀ ip, firstSome (samplerAttempts TIMEOUT_5MIN 30) env.installPlanRef = some ip →
        (wait_for_install_plan_from_subscription env subName subNs).1 =
          .ok ⟨ip, subNs⟩)
    ∧ (firstSome (samplerAttempts TIMEOUT_5MIN 30) env.installPlanRef = none →
        (wait_for_install_plan_from_subscription env subName subNs).1 =
          .error .timeoutExpired
        ∧ Effect.logError ("Subscription: " ++ subName ++
            ", did not get updated with install plan") ∈
          (wait_for_install_plan_from_subscription env subName subNs).2) := by
  refine ⟨?_, ?_, ?_⟩
  · rw [wait_for_install_plan_from_subscription]
    cases firstSome (samplerAttempts TIMEOUT_5MIN 30) env.installPlanRef <;> rfl
  · intro ip hip
    rw [wait_for_install_plan_from_subscription, hip]
  · intro hnone
    rw [wait_for_install_plan_from_subscription, hnone]
    exact ⟨rfl, by simp⟩

/-- Witness for C7: with a quiet environment the discovery wait uses the
5-minute/30-second policy, times out, and logs. -/
theorem C7_witness :
    ((wait_for_install_plan_from_subscription quietEnv "my-op" "my-op").2.head? =
        some (.samplerWait "installplan" TIMEOUT_5MIN 30))
    ∧ ((wait_for_install_plan_from_subscription quietEnv "my-op" "my-op").1 =
        .error .timeoutExpired) := by
  have h := C7_wait_for_install_plan_policy quietEnv "my-op" "my-op"
  refine ⟨h.1, (h.2.2 ?_).1⟩
  rw [show firstSome (samplerAttempts TIMEOUT_5MIN 30) quietEnv.installPlanRef =
    firstSome 11 (fun _ => none) from rfl]
  rfl

/-- C5: after the install plan completes, `wait_for_csv_successful_state`
polls `status.installedCSV` with a 1-second sleep and a 30-second internal
deadline; once a non-empty name appears it resolves the CSV with that name
in the subscription's namespace, failing with the not-found error when no
such CSV exists there, and otherwise proceeding to the CSV-Succeeded
wait. -/
theorem C5_csv_resolution_policy (env : ClusterEnv) (store : Store)
    (subName subNs : String) (timeout : Nat) :
    ((wait_for_csv_successful_state env store subName subNs timeout).2.head? =
        some (.samplerWait "installedCSV" 30 1))
    ∧ (firstSome (samplerAttempts 30 1) env.installedCSV = none →
        (wait_for_csv_successful_state env store subName subNs timeout).1 =
          .error .timeoutExpired)
    ∧ (∀ csvName, firstSome (samplerAttempts 30 1) env.installedCSV = some csvName →
        ((csvName, subNs) ∉ store.csvs →
          (wait_for_csv_successful_state env store subName subNs timeout).1 =
            .error (.resourceNotFound
              ("CSV " ++ csvName ++ " not found in namespace: " ++ subNs)))
        ∧ ((csvName, subNs) ∈ store.csvs →
            get_csv_by_name store csvName subNs = .ok (csvName, subNs)
            ∧ (wait_for_csv_successful_state env store subName subNs timeout).1 =
                (wait_for_status "ClusterServiceVersion" "Succeeded"
                  env.csvSucceeded timeout).1)) := by
  refine ⟨?_, ?_, ?_⟩
  · rw [wait_for_csv_successful_state]
    cases firstSome (samplerAttempts 30 1) env.installedCSV with
    | none => rfl
    | some csvName =>
        dsimp only
        cases get_csv_by_name store csvName subNs <;> rfl
  · intro hnone
    rw [wait_for_csv_successful_state, hnone]
  · intro csvName hcsv
    constructor
    · intro habs
      rw [wait_for_csv_successful_state, hcsv]
      dsimp only
      rw [get_csv_by_name, if_neg habs]
    · intro hpres
      have hres : get_csv_by_name store csvName subNs = .ok (csvName, subNs) := by
        rw [get_csv_by_name, if_pos hpres]
      refine ⟨hres, ?_⟩
      rw [wait_for_csv_successful_state, hcsv]
      dsimp only
      rw [hres]

/-- Witness for C5: a concrete run in which the subscription reports
`csv-x` but no such CSV exists in the namespace fails with not-found. -/
theorem C5_witness :
    ((wait_for_csv_successful_state
        ⟨fun _ => none, fun _ => false, fun _ => some "csv-x", fun _ => false⟩
        emptyStore "my-op" "my-op" TIMEOUT_10MIN).2.head? =
      some (.samplerWait "installedCSV" 30 1))
    ∧ ((wait_for_csv_successful_state
        ⟨fun _ => none, fun _ => false, fun _ => some "csv-x", fun _ => false⟩
        emptyStore "my-op" "my-op" TIMEOUT_10MIN).1 =
      .error (.resourceNotFound "CSV csv-x not found in namespace: my-op")) := by
  have h := C5_csv_resolution_policy
    ⟨fun _ => none, fun _ => false, fun _ => some "csv-x", fun _ => false⟩
    emptyStore "my-op" "my-op" TIMEOUT_10MIN
  refine ⟨h.1, ?_⟩
  have h2 := (h.2.2 "csv-x" rfl).1 (by decide)
  exact h2

/-- C9: in `wait_for_operator_install` the `timeout` argument influences
only the InstallPlan-Complete wait.  For any two calls differing only in
the timeout, both runs start with the install-plan discovery wait at the
fixed 5-minute deadline with 30-second sleeps, every `installedCSV` wait
uses the fixed 30-second deadline with 1-second sleeps, and every
CSV-Succeeded status wait uses the fixed 10-minute deadline. -/
theorem C9_timeout_only_affects_install_plan_wait (env : ClusterEnv) (store : Store)
    (subName subNs : String) (t1 t2 : Nat) :
    (((wait_for_operator_install env store subName subNs t1).2.head? =
        some (.samplerWait "installplan" TIMEOUT_5MIN 30))
      ∧ (∀ tmo sl, Effect.samplerWait "installedCSV" tmo sl ∈
            (wait_for_operator_install env store subName subNs t1).2 →
          tmo = 30 ∧ sl = 1)
      ∧ (∀ tg tmo, Effect.waitStatus "ClusterServiceVersion" tg tmo ∈
            (wait_for_operator_install env store subName subNs t1).2 →
          tmo = TIMEOUT_10MIN))
    ∧ (((wait_for_operator_install env store subName subNs t2).2.head? =
        some (.samplerWait "installplan" TIMEOUT_5MIN 30))
      ∧ (∀ tmo sl, Effect.samplerWait "installedCSV" tmo sl ∈
            (wait_for_operator_install env store subName subNs t2).2 →
          tmo = 30 ∧ sl = 1)
      ∧ (∀ tg tmo, Effect.waitStatus "ClusterServiceVersion" tg tmo ∈
            (wait_for_operator_install env store subName subNs t2).2 →
          tmo = TIMEOUT_10MIN)) := by
  have key : ∀ t : Nat,
      ((wait_for_operator_install env store subName subNs t).2.head? =
        some (.samplerWait "installplan" TIMEOUT_5MIN 30))
      ∧ (∀ tmo sl, Effect.samplerWait "installedCSV" tmo sl ∈
            (wait_for_operator_install env store subName subNs t).2 →
          tmo = 30 ∧ sl = 1)
      ∧ (∀ tg tmo, Effect.waitStatus "ClusterServiceVersion" tg tmo ∈
            (wait_for_operator_install env store subName subNs t).2 →
          tmo = TIMEOUT_10MIN) := by
    intro t
    refine ⟨wait_for_operator_install_head env store subName subNs t, ?_, ?_⟩
    · intro tmo sl hmem
      rcases wait_for_operator_install_members env store subName subNs t _ hmem with
        h | h | h | h | h
      · injection h with a b c
        simp at a
      · obtain ⟨m, hm⟩ := h
        simp at hm
      · simp at h
      · injection h with a b c
        exact ⟨b, c⟩
      · simp at h
    · intro tg tmo hmem
      rcases wait_for_operator_install_members env store subName subNs t _ hmem with
        h | h | h | h | h
      · simp at h
      · obtain ⟨m, hm⟩ := h
        simp at hm
      · injection h with a b c
        simp at a
      · simp at h
      · rw [Effect.waitStatus.injEq] at h
        exact h.2.2
  exact ⟨key t1, key t2⟩

/-- Witness for C9 at two concrete timeouts. -/
theorem C9_witness :
    ((wait_for_operator_install quietEnv emptyStore "my-op" "my-op" 42).2.head? =
        some (.samplerWait "installplan" TIMEOUT_5MIN 30))
    ∧ ((wait_for_operator_install quietEnv emptyStore "my-op" "my-op" 9999).2.head? =
        some (.samplerWait "installplan" TIMEOUT_5MIN 30)) :=
  ⟨(C9_timeout_only_affects_install_plan_wait quietEnv emptyStore "my-op" "my-op"
      42 9999).1.1,
   (C9_timeout_only_affects_install_plan_wait quietEnv emptyStore "my-op" "my-op"
      42 9999).2.1⟩

/-- C6: on the index-image install path, the absent-branch of `_icsp`
creates the ICSP with the computed rules under `spec.repositoryDigestMirrors`,
but the present-branch patch uses the literal key `"spec:"` (with snake-case
`repository_digest_mirrors` below it), so after the patch the object's
`spec` still does not contain the repository-digest-mirror rules — they
end up under a separate top-level `"spec:"` key. -/
theorem C6_patch_branch_misses_spec :
    (icspStep none c6Rdm).1 = icspCreateBody c6Rdm
    ∧ jsonObjLookup (icspCreateBody c6Rdm) (strCodes "spec") =
        some (.obj [(strCodes "repositoryDigestMirrors", c6Rdm)])
    ∧ (icspStep (some c6Existing) c6Rdm).2 = .patchIcsp "brew-registry"
    ∧ jsonObjLookup (icspStep (some c6Existing) c6Rdm).1 (strCodes "spec") =
        some (.obj [(strCodes "repositoryDigestMirrors", .arr [])])
    ∧ jsonObjLookup (icspStep (some c6Existing) c6Rdm).1 (strCodes "spec:") =
        some (.obj [(strCodes "repository_digest_mirrors", c6Rdm)]) :=
  ⟨rfl, rfl, rfl, rfl, rfl⟩

/-- C8: the Prometheus polling interval is discovered once at
construction: `get_scrape_interval` returns the leading integer of the
`scrapeInterval` of the first active target whose job label is
`prometheus-k8s` and 30 when no such target exists; the constructed
instance stores that value, and it is the sleep of every query and alert
sampler. -/
theorem C8_scrape_interval_policy (targets : List (Option TargetRec)) :
    (get_scrape_interval targets =
      match firstPromTarget targets with
      | some tr =>
          match leadingNat tr.scrapeInterval with
          | some n => .ok n
          | none => .error .attributeError
      | none => .ok 30)
    ∧ (∀ p, mkPrometheus targets = .ok p →
        get_scrape_interval targets = .ok p.scrape_interval)
    ∧ (∀ (p : Prometheus) (obs : Nat → QueryResponse) (tmo : Nat),
        (query_sampler p obs tmo).2 = [.samplerWait "query" tmo p.scrape_interval])
    ∧ (∀ (p : Prometheus) (obs : Nat → List Alert) (alert_name : String)
        (tmo : Nat) (state : String),
        (wait_for_alert_by_state_sampler p obs alert_name tmo state).2 =
          [.samplerWait "alerts" tmo p.scrape_interval]) := by
  refine ⟨?_, ?_, fun p obs tmo => rfl, fun p obs an tmo st => rfl⟩
  · induction targets with
    | nil => rfl
    | cons t rest ih =>
        cases t with
        | none =>
            rw [get_scrape_interval, firstPromTarget, List.findSome?_cons]
            rw [firstPromTarget] at ih
            exact ih
        | some tr =>
            by_cases hj : tr.job = "prometheus-k8s"
            · rw [get_scrape_interval, if_pos hj, firstPromTarget, List.findSome?_cons]
              dsimp only
              rw [if_pos hj]
            · rw [get_scrape_interval, if_neg hj, firstPromTarget, List.findSome?_cons]
              dsimp only
              rw [if_neg hj]
              rw [firstPromTarget] at ih
              exact ih
  · intro p hp
    rw [mkPrometheus] at hp
    cases hg : get_scrape_interval targets with
    | ok n =>
        rw [hg] at hp
        injection hp with h
        rw [← h]
    | error e =>
        rw [hg] at hp
        exact absurd hp (by simp)

/-- Witness for C8: a concrete targets list whose first matching target
reports `30s`, and a sampler of the constructed instance sleeping 30. -/
theorem C8_witness :
    get_scrape_interval [none, some ⟨"other", "15s"⟩, some ⟨"prometheus-k8s", "30s"⟩] =
      .ok 30
    ∧ (query_sampler ⟨30⟩ (fun _ => ⟨"success", []⟩) 120).2 =
        [.samplerWait "query" 120 30] := by
  have h := C8_scrape_interval_policy
    [none, some ⟨"other", "15s"⟩, some ⟨"prometheus-k8s", "30s"⟩]
  refine ⟨?_, h.2.2.1 ⟨30⟩ (fun _ => ⟨"success", []⟩) 120⟩
  rw [h.1]
  rfl

/-! ### Dictionary-merge lemmas for the secret claims -/

theorem lookupSecret_setSecret (st : SecretsStore) (key : String × String)
    (v : List Nat) : lookupSecret (setSecret st key v) key = some v := by
  induction st with
  | nil => simp [setSecret, lookupSecret]
  | cons e rest ih =>
      obtain ⟨k', v'⟩ := e
      rw [setSecret]
      by_cases h : k' = key
      · rw [if_pos h, lookupSecret, if_pos rfl]
      · rw [if_neg h, lookupSecret, if_neg h]
        exact ih

theorem lookupKey_setKey_self (d : List (List Nat × Json)) (k : List Nat) (v : Json) :
    lookupKey (setKey d k v) k = some v := by
  induction d with
  | nil => simp [setKey, lookupKey]
  | cons e rest ih =>
      obtain ⟨k', v'⟩ := e
      rw [setKey]
      by_cases h : k' = k
      · rw [if_pos h, lookupKey, if_pos rfl]
      · rw [if_neg h, lookupKey, if_neg h]
        exact ih

theorem lookupKey_setKey_other (d : List (List Nat × Json)) (k : List Nat) (v : Json)
    (q : List Nat) (hne : q ≠ k) : lookupKey (setKey d k v) q = lookupKey d q := by
  induction d with
  | nil =>
      rw [setKey,
        show lookupKey [(k, v)] q = if k = q then some v else lookupKey [] q from rfl,
        if_neg (show ¬(k = q) from fun h => hne h.symm)]
  | cons e rest ih =>
      obtain ⟨k', v'⟩ := e
      rw [setKey]
      by_cases h : k' = k
      · rw [if_pos h, lookupKey, if_neg (show ¬(k = q) from fun hq => hne hq.symm),
          lookupKey, h, if_neg (show ¬(k = q) from fun hq => hne hq.symm)]
      · rw [if_neg h, lookupKey, lookupKey]
        by_cases h2 : k' = q
        · rw [if_pos h2, if_pos h2]
        · rw [if_neg h2, if_neg h2]
          exact ih

theorem lookupKey_dictUpdate_not_mem (B : List (List Nat × Json)) :
    ∀ A : List (List Nat × Json), ∀ k, k ∉ B.map Prod.fst →
      lookupKey (dictUpdate A B) k = lookupKey A k := by
  induction B with
  | nil => intro A k _; rfl
  | cons e B ih =>
      obtain ⟨kb, vb⟩ := e
      intro A k hk
      simp only [List.map_cons, List.mem_cons] at hk
      push_neg at hk
      rw [show dictUpdate A ((kb, vb) :: B) = dictUpdate (setKey A kb vb) B from rfl]
      rw [ih (setKey A kb vb) k hk.2]
      exact lookupKey_setKey_other A kb vb k hk.1

theorem lookupKey_dictUpdate_mem (B : List (List Nat × Json)) :
    ∀ A : List (List Nat × Json), keysNodup (B.map Prod.fst) = true →
      ∀ k v, lookupKey B k = some v → lookupKey (dictUpdate A B) k = some v := by
  induction B with
  | nil => intro A _ k v h; simp [lookupKey] at h
  | cons e B ih =>
      obtain ⟨kb, vb⟩ := e
      intro A hnd k v h
      simp only [List.map_cons, keysNodup, Bool.and_eq_true, Bool.not_eq_true',
        decide_eq_false_iff_not] at hnd
      rw [show dictUpdate A ((kb, vb) :: B) = dictUpdate (setKey A kb vb) B from rfl]
      rw [lookupKey] at h
      by_cases hk : kb = k
      · rw [if_pos hk] at h
        injection h with hv
        rw [← hv, ← hk]
        rw [lookupKey_dictUpdate_not_mem B (setKey A kb vb) kb
          (by simpa using hnd.1)]
        exact lookupKey_setKey_self A kb vb
      · rw [if_neg hk] at h
        exact ih (setKey A kb vb) hnd.2 k v h

/-- C4: when the stored pull secret decodes to auths map `A` and the new
`secret_data_dict` carries auths map `B`, `create_update_secret` stores the
encoded key-wise union `dictUpdate A B`, in which every key of `A` not in
`B` keeps its previous entry and every key of `B` maps to its new entry. -/
theorem C4_secret_merge_union (store : SecretsStore) (A B : List (List Nat × Json))
    (name ns : String)
    (hwfA : jsonWF (.obj [(authsKey, .obj A)]) = true)
    (hstored : lookupSecret store (name, ns) =
      some (dict_base64_encode (.obj [(authsKey, .obj A)]))) :
    create_update_secret store (.obj [(authsKey, .obj B)]) name ns =
      some (setSecret store (name, ns)
        (dict_base64_encode (.obj [(authsKey, .obj (dictUpdate A B))])))
    ∧ lookupSecret (setSecret store (name, ns)
        (dict_base64_encode (.obj [(authsKey, .obj (dictUpdate A B))]))) (name, ns) =
      some (dict_base64_encode (.obj [(authsKey, .obj (dictUpdate A B))]))
    ∧ (∀ k, k ∉ B.map Prod.fst → lookupKey (dictUpdate A B) k = lookupKey A k)
    ∧ (keysNodup (B.map Prod.fst) = true →
        ∀ k v, lookupKey B k = some v → lookupKey (dictUpdate A B) k = some v) := by
  have hb : b64Decode (dict_base64_encode (.obj [(authsKey, .obj A)])) =
      some (serJson (.obj [(authsKey, .obj A)])) := by
    rw [dict_base64_encode]
    exact b64_roundtrip _ (serJson_lt hwfA)
  have hl : jsonLoads (serJson (.obj [(authsKey, .obj A)])) =
      some (.obj [(authsKey, .obj A)]) := jsonLoads_serJson hwfA
  refine ⟨?_, lookupSecret_setSecret store (name, ns) _,
    fun k hk => lookupKey_dictUpdate_not_mem B A k hk,
    fun hnd k v hv => lookupKey_dictUpdate_mem B A hnd k v hv⟩
  rw [create_update_secret, hstored]
  dsimp only
  rw [hb]
  simp only [Option.bind_eq_bind, Option.some_bind]
  rw [hl]
  simp only [Option.some_bind]
  rw [show getAuths (.obj [(authsKey, .obj A)]) = some A from rfl]
  simp only [Option.some_bind]
  rw [show getAuths (.obj [(authsKey, .obj B)]) = some B from rfl]
  simp only [Option.some_bind]
  rfl

/-- Witness for C4 at the specification's example: merging
`{"auths": {"b": {"auth": "y"}}}` into a secret holding
`{"auths": {"a": {"auth": "x"}}}` stores the union and both entries are
retrievable. -/
theorem C4_witness :
    create_update_secret exampleStore (.obj [(authsKey, .obj exampleB)])
        "pull-secret" "openshift-config" =
      some (setSecret exampleStore ("pull-secret", "openshift-config")
        (dict_base64_encode (.obj [(authsKey, .obj (dictUpdate exampleA exampleB))])))
    ∧ lookupKey (dictUpdate exampleA exampleB) (strCodes "a") =
        some (.obj [(strCodes "auth", .str (strCodes "x"))])
    ∧ lookupKey (dictUpdate exampleA exampleB) (strCodes "b") =
        some (.obj [(strCodes "auth", .str (strCodes "y"))]) := by
  have h := C4_secret_merge_union exampleStore exampleA exampleB "pull-secret"
    "openshift-config" (by decide) rfl
  refine ⟨h.1, ?_, ?_⟩
  · rw [h.2.2.1 (strCodes "a") (by decide)]
    rfl
  · exact h.2.2.2 (by decide) (strCodes "b")
      (.obj [(strCodes "auth", .str (strCodes "y"))]) rfl

/-- C10: for every well-formed JSON dict, JSON-decoding the
base64-decoding of `dict_base64_encode` recovers the dict exactly, and a
secret payload written by `create_update_secret` (create branch) and read
back through the same decoding equals the dict that was stored. -/
theorem C10_encode_decode_roundtrip (kvs : List (List Nat × Json))
    (h : jsonWF (.obj kvs) = true) :
    ((b64Decode (dict_base64_encode (.obj kvs))).bind jsonLoads = some (.obj kvs))
    ∧ (∀ store name ns, lookupSecret store (name, ns) = none →
        create_update_secret store (.obj kvs) name ns =
          some (setSecret store (name, ns) (dict_base64_encode (.obj kvs)))
        ∧ lookupSecret (setSecret store (name, ns) (dict_base64_encode (.obj kvs)))
            (name, ns) = some (dict_base64_encode (.obj kvs))) := by
  constructor
  · rw [dict_base64_encode, b64_roundtrip _ (serJson_lt h), Option.some_bind]
    exact jsonLoads_serJson h
  · intro store name ns hnone
    constructor
    · rw [create_update_secret, hnone]
    · exact lookupSecret_setSecret store (name, ns) _

/-- Witness for C10 at the example payload. -/
theorem C10_witness :
    ((b64Decode (dict_base64_encode (.obj [(authsKey, .obj exampleA)]))).bind
        jsonLoads = some (.obj [(authsKey, .obj exampleA)]))
    ∧ create_update_secret [] (.obj [(authsKey, .obj exampleA)]) "pull-secret"
        "openshift-config" =
      some (setSecret [] ("pull-secret", "openshift-config")
        (dict_base64_encode (.obj [(authsKey, .obj exampleA)]))) := by
  have h := C10_encode_decode_roundtrip [(authsKey, .obj exampleA)] (by decide)
  exact ⟨h.1, (h.2 [] "pull-secret" "openshift-config" rfl).1⟩

end OcpUtils
